import Mathlib

/-!
# Verification of the cascading backup-and-delete engine and its workflow

Shallow embedding of `DeleteUserDataActivity/handler.ts` (the cascading
backup-and-delete engine) and of the user-data-download workflow state
machine, together with theorems settling the specification claims.

Effectful TypeScript code built on fp-ts `TaskEither` is embedded as pure
Lean functions from an explicit environment (which fixes the outcome of
every external call) to a pair `(trace of external calls, result)`.
The fp-ts combinators are modelled by their value semantics:
* `sequenceT(taskEitherSeq)` / `.chain` short-circuit: later components do
  not run once an earlier one failed;
* `array.sequence(taskEither)` and `sequenceT(taskEither)` are parallel
  (`Promise.all`): every component runs to completion regardless of the
  others' failures, and the combined value keeps the first (in component
  order) failure.  Concurrent sub-tasks are scheduled here in component
  order; the properties proved below do not depend on the interleaving.
-/

namespace IoFunctionsAdmin

/-- Failures that can occur while fetching, backing up or deleting data
(`DataFailure = QueryFailure | BlobCreationFailure | DocumentDeleteFailure`
in the source). -/
inductive DataFailure : Type
  | query (reason : String)
  | blob (reason : String)
  | del (reason : String)
deriving DecidableEq, Repr

/-- The activity result union (`ActivityResult` in the source): `SUCCESS`
plus the declared failure variants, including `USER_NOT_FOUND_FAILURE`. -/
inductive ActivityResult : Type
  | success
  | userNotFound
  | queryFailure (reason : String)
  | invalidInput (reason : String)
  | blobFailure (reason : String)
  | deleteFailure (reason : String)
deriving DecidableEq, Repr

/-- One observable external call made by the cascade.  The `collection` and
`key` arguments of `saveBlob` are instrumentation: they record which record
the backup belongs to (the source's `saveDataToBlob` receives only the blob
name, but every call site passes the blob of exactly one record). -/
inductive Event : Type
  | fetchPage (collection : String)
  | saveBlob (collection : String) (key : String) (path : String) (content : String)
  | deleteDoc (collection : String) (key : String)
deriving DecidableEq, Repr

/-- The collection a call refers to. -/
def Event.coll : Event → String
  | .fetchPage c => c
  | .saveBlob c _ _ _ => c
  | .deleteDoc c _ => c

/-- `IBlobServiceInfo` from the source: container plus optional folder. -/
structure BlobServiceInfo : Type where
  containerName : String
  folder : Option String
deriving DecidableEq, Repr

/-- The full blob path `${folder}${folder ? "/" : ""}${blobName}` of
`saveDataToBlob`.  When `folder` is absent the JS template renders the
string `"undefined"`. -/
def blobFullName (info : BlobServiceInfo) (blobName : String) : String :=
  match info.folder with
  | some f => f ++ "/" ++ blobName
  | none => "undefined" ++ blobName

/-- `saveDataToBlob`: emit the blob write and map the storage outcome
(`so path = none` means the write succeeded, `some msg` is the error
message) to either the saved data or a `BLOB_FAILURE`.  `coll`/`key` tag
the record being backed up; `ser` is the record's serialization
(`JSON.stringify`). -/
def saveDataToBlob {T : Type} (so : String → Option String)
    (info : BlobServiceInfo) (coll key : String) (blobName : String)
    (ser : T → String) (data : T) : List Event × Except DataFailure T :=
  let path := blobFullName info blobName
  ([Event.saveBlob coll key path (ser data)],
    match so path with
    | none => Except.ok data
    | some msg => Except.error (DataFailure.blob msg))

/-- One result of `iterator.executeNext`: a query error, exhaustion
(`none`) or a page of items. -/
abbrev PageRes (T : Type) := Except String (Option (List T))

/-- The per-entity-type parameters of `executeRecursiveBackupAndDelete`:
the collection name, how to build the backup blob name, the delete key,
the outcome of deleting each item (`none` = success), and the item
serializer. -/
structure WalkerOps (T : Type) : Type where
  collection : String
  blobName : T → String
  delKey : T → String
  delOutcome : T → Option String
  serialize : T → String

/-- The untyped value produced by the recursive walker.  The source
declares `readonly T[]` but at runtime each page item contributes the
array `[item, ...nextResults]`, so successful results are nested arrays
of records. -/
inductive JVal (T : Type) : Type
  | item : T → JVal T
  | arr : List (JVal T) → JVal T

/-- Whether a walker result element is a bare record (rather than a nested
array). -/
def JVal.isItem {T : Type} : JVal T → Bool
  | .item _ => true
  | .arr _ => false

/-- First-failure-biased combination of independently run results: the
value semantics of `array.sequence(taskEither)` (all tasks run via
`Promise.all`; the combined `Either` keeps the first failure in array
order). -/
def seqList {e α : Type} : List (Except e α) → Except e (List α)
  | [] => Except.ok []
  | r :: rs =>
    match r with
    | Except.error l => Except.error l
    | Except.ok a =>
      match seqList rs with
      | Except.error l => Except.error l
      | Except.ok as => Except.ok (a :: as)

/-- Per-item loop of `executeRecursiveBackupAndDelete`: for every item of
the fetched page run `sequenceT(taskEitherSeq)(save, delete, recurse)`
and map the triple to `[item, ...nextResults]`.  All items run (parallel
`array.sequence`), threading the shared stateful iterator in item order;
`recur` is the recursive walker call on the remaining iterator state. -/
def processItems {T : Type} (so : String → Option String)
    (info : BlobServiceInfo) (ops : WalkerOps T)
    (recur : List (PageRes T) →
      List Event × List (PageRes T) × Except DataFailure (List (JVal T))) :
    List T → List (PageRes T) →
      List Event × List (PageRes T) × List (Except DataFailure (List (JVal T)))
  | [], pages => ([], pages, [])
  | item :: more, pages =>
    let path := blobFullName info (ops.blobName item)
    let saveEv := Event.saveBlob ops.collection (ops.delKey item) path (ops.serialize item)
    match so path with
    | some msg =>
      -- backup failed: neither the delete nor the recursive step runs
      let t := processItems so info ops recur more pages
      (saveEv :: t.1, t.2.1, Except.error (DataFailure.blob msg) :: t.2.2)
    | none =>
      let delEv := Event.deleteDoc ops.collection (ops.delKey item)
      match ops.delOutcome item with
      | some msg =>
        -- delete failed: the recursive step does not run for this item
        let t := processItems so info ops recur more pages
        (saveEv :: delEv :: t.1, t.2.1, Except.error (DataFailure.del msg) :: t.2.2)
      | none =>
        let r := recur pages
        let r1 := (r.2.2).map (fun nested => JVal.item item :: nested)
        let t := processItems so info ops recur more r.2.1
        (saveEv :: delEv :: (r.1 ++ t.1), t.2.1, r1 :: t.2.2)

/-- `executeRecursiveBackupAndDelete`: pop one `executeNext` result from
the iterator (an exhausted iterator keeps answering `none`); a query error
becomes a `QUERY_FAILURE`; `none` ends the recursion with `[]`; a page is
processed by `processItems`, whose per-item results are combined
first-failure-biased, each successful item contributing the nested array
`[item, ...nextResults]`.  `fuel` bounds the recursion depth; every run
below uses `pages.length + 1`, which is never exhausted because each
recursive call first consumes one iterator answer. -/
def execRec {T : Type} (so : String → Option String)
    (info : BlobServiceInfo) (ops : WalkerOps T) :
    Nat → List (PageRes T) →
      List Event × List (PageRes T) × Except DataFailure (List (JVal T))
  | 0, pages => ([], pages, Except.error (DataFailure.query "OUT_OF_FUEL"))
  | Nat.succ fuel, pages =>
    match pages with
    | [] => ([Event.fetchPage ops.collection], [], Except.ok [])
    | Except.error e :: rest =>
      ([Event.fetchPage ops.collection], rest, Except.error (DataFailure.query e))
    | Except.ok none :: rest =>
      ([Event.fetchPage ops.collection], rest, Except.ok [])
    | Except.ok (some items) :: rest =>
      let t := processItems so info ops (execRec so info ops fuel) items rest
      (Event.fetchPage ops.collection :: t.1, t.2.1,
        (seqList t.2.2).map (fun ls => ls.map JVal.arr))

/-- Run the recursive walker on a fresh iterator. -/
def runWalker {T : Type} (so : String → Option String)
    (info : BlobServiceInfo) (ops : WalkerOps T) (pages : List (PageRes T)) :
    List Event × Except DataFailure (List (JVal T)) :=
  let t := execRec so info ops (pages.length + 1) pages
  (t.1, t.2.2)

/-! ## Data model: the records handled by the cascade -/

/-- `RetrievedProfile`: one version of the user's profile. -/
structure RetrievedProfile : Type where
  fiscalCode : String
  id : String
  version : Nat
deriving DecidableEq, Repr

/-- `RetrievedMessageWithoutContent`: one message owned by the user. -/
structure RetrievedMessage : Type where
  fiscalCode : String
  id : String
deriving DecidableEq, Repr

/-- `RetrievedMessageStatus`: one version of a message's status. -/
structure RetrievedMessageStatus : Type where
  messageId : String
  id : String
  version : Nat
deriving DecidableEq, Repr

/-- `RetrievedNotification`: one notification of a message. -/
structure RetrievedNotification : Type where
  messageId : String
  id : String
deriving DecidableEq, Repr

/-- `RetrievedNotificationStatus`: one version of a notification's status. -/
structure RetrievedNotificationStatus : Type where
  notificationId : String
  id : String
  version : Nat
deriving DecidableEq, Repr

/-- `MessageContent` is opaque to the cascade; it is only serialized and
stored. -/
abbrev MessageContent := String

/-- The environment of one cascade run: the outcome of every external call
the engine can make.  `saveOutcome` is shared by all backup writes (keyed
by the full blob path, `none` = success); the remaining fields give the
primary store's answers per entity type. -/
structure Env : Type where
  saveOutcome : String → Option String
  serProfile : RetrievedProfile → String
  serMessage : RetrievedMessage → String
  serMessageStatus : RetrievedMessageStatus → String
  serNotification : RetrievedNotification → String
  serNotificationStatus : RetrievedNotificationStatus → String
  serContent : MessageContent → String
  profilePages : String → List (PageRes RetrievedProfile)
  profileDelOutcome : RetrievedProfile → Option String
  messagesResult : String → Except String (List RetrievedMessage)
  messageDelOutcome : RetrievedMessage → Option String
  messageStatusPages : String → List (PageRes RetrievedMessageStatus)
  messageStatusDelOutcome : RetrievedMessageStatus → Option String
  notificationsResult : String → Except String (List RetrievedNotification)
  notificationDelOutcome : RetrievedNotification → Option String
  notificationStatusPages : String → List (PageRes RetrievedNotificationStatus)
  notificationStatusDelOutcome : RetrievedNotificationStatus → Option String
  contentResult : String → Except String (Option MessageContent)
  contentDelOutcome : String → Option String

/-! ## The cascade functions, one per source function -/

/-- `backupAndDeleteProfile`: walk every version of the profile
(`findAllVersionsByModelId(fiscalCode)`), backing each up as
`profile--${item.version}.json` and deleting it via
`deleteProfileVersion(item.fiscalCode, item.id)`. -/
def backupAndDeleteProfile (env : Env) (info : BlobServiceInfo)
    (fiscalCode : String) :
    List Event × Except DataFailure (List (JVal RetrievedProfile)) :=
  runWalker env.saveOutcome info
    { collection := "profile"
      blobName := fun item => "profile--" ++ toString item.version ++ ".json"
      delKey := fun item => item.id
      delOutcome := env.profileDelOutcome
      serialize := env.serProfile }
    (env.profilePages fiscalCode)

/-- `backupAndDeleteNotification`:
`sequenceT(taskEitherSeq)(save notification--${id}.json, deleteNotification)`,
returning the notification itself on success. -/
def backupAndDeleteNotification (env : Env) (info : BlobServiceInfo)
    (notification : RetrievedNotification) :
    List Event × Except DataFailure RetrievedNotification :=
  let t1 := saveDataToBlob env.saveOutcome info "notification"
    notification.id ("notification--" ++ notification.id ++ ".json")
    env.serNotification notification
  match t1.2 with
  | Except.error f => (t1.1, Except.error f)
  | Except.ok _ =>
    let delEv := Event.deleteDoc "notification" notification.id
    match env.notificationDelOutcome notification with
    | some msg => (t1.1 ++ [delEv], Except.error (DataFailure.del msg))
    | none => (t1.1 ++ [delEv], Except.ok notification)

/-- `backupAndDeleteNotificationStatus`: walk every version of the
notification's status (`findAllVersionsByNotificationId(notification.id)`),
backing each up as `notification-status--${item.version}.json` and deleting
it via `deleteNotificationStatusVersion(item.notificationId, item.id)`. -/
def backupAndDeleteNotificationStatus (env : Env) (info : BlobServiceInfo)
    (notification : RetrievedNotification) :
    List Event × Except DataFailure (List (JVal RetrievedNotificationStatus)) :=
  runWalker env.saveOutcome info
    { collection := "notification-status"
      blobName := fun item => "notification-status--" ++ toString item.version ++ ".json"
      delKey := fun item => item.id
      delOutcome := env.notificationStatusDelOutcome
      serialize := env.serNotificationStatus }
    (env.notificationStatusPages notification.id)

/-- `backupAndDeleteMessage`:
`sequenceT(taskEitherSeq)(save message--${id}.json, deleteMessage)`,
returning the message itself on success. -/
def backupAndDeleteMessage (env : Env) (info : BlobServiceInfo)
    (message : RetrievedMessage) :
    List Event × Except DataFailure RetrievedMessage :=
  let t1 := saveDataToBlob env.saveOutcome info "message"
    message.id ("message--" ++ message.id ++ ".json") env.serMessage message
  match t1.2 with
  | Except.error f => (t1.1, Except.error f)
  | Except.ok _ =>
    let delEv := Event.deleteDoc "message" message.id
    match env.messageDelOutcome message with
    | some msg => (t1.1 ++ [delEv], Except.error (DataFailure.del msg))
    | none => (t1.1 ++ [delEv], Except.ok message)

/-- `backupAndDeleteMessageContent`: read the optional content blob; a read
error (the source treats "document not found" as a query error) or an
absent document yields success with `none` and no further call; a present
document is backed up as `messagecontent--${message.id}.json` and then
deleted, yielding `some content`. -/
def backupAndDeleteMessageContent (env : Env) (info : BlobServiceInfo)
    (message : RetrievedMessage) :
    List Event × Except DataFailure (Option MessageContent) :=
  match env.contentResult message.id with
  | Except.error _ => ([], Except.ok none)
  | Except.ok none => ([], Except.ok none)
  | Except.ok (some content) =>
    let t1 := saveDataToBlob env.saveOutcome info "message-content"
      message.id ("messagecontent--" ++ message.id ++ ".json")
      env.serContent content
    match t1.2 with
    | Except.error f => (t1.1, Except.error f)
    | Except.ok _ =>
      let delEv := Event.deleteDoc "message-content" message.id
      match env.contentDelOutcome message.id with
      | some msg => (t1.1 ++ [delEv], Except.error (DataFailure.del msg))
      | none => (t1.1 ++ [delEv], Except.ok (some content))

/-- `backupAndDeleteMessageStatus`: walk every version of the message's
status (`findAllVersionsByModelId(message.id)`), backing each up as
`message-status--${item.version}.json` and deleting it via
`deleteMessageStatusVersion(item.messageId, item.id)`. -/
def backupAndDeleteMessageStatus (env : Env) (info : BlobServiceInfo)
    (message : RetrievedMessage) :
    List Event × Except DataFailure (List (JVal RetrievedMessageStatus)) :=
  runWalker env.saveOutcome info
    { collection := "message-status"
      blobName := fun item => "message-status--" ++ toString item.version ++ ".json"
      delKey := fun item => item.id
      delOutcome := env.messageStatusDelOutcome
      serialize := env.serMessageStatus }
    (env.messageStatusPages message.id)

/-- The per-notification lambda of `backupAndDeleteAllNotificationsData`:
`sequenceT(taskEitherSeq)(status cascade, notification backup+delete)` —
the notification itself is only touched after its whole status history
succeeded. -/
def backupAndDeleteSingleNotificationData (env : Env) (info : BlobServiceInfo)
    (n : RetrievedNotification) :
    List Event ×
      Except DataFailure
        (List (JVal RetrievedNotificationStatus) × RetrievedNotification) :=
  let t1 := backupAndDeleteNotificationStatus env info n
  match t1.2 with
  | Except.error f => (t1.1, Except.error f)
  | Except.ok sts =>
    let t2 := backupAndDeleteNotification env info n
    (t1.1 ++ t2.1, t2.2.map (fun nr => (sts, nr)))

/-- `backupAndDeleteAllNotificationsData`: fetch all notifications of the
message (`iteratorToArray`, a query failure aborts); for each notification
run `sequenceT(taskEitherSeq)(status cascade, notification backup+delete)`
— the notification itself is only touched after its status history
succeeded; notifications are combined with the parallel
`array.sequence(taskEither)` (all run, first failure wins). -/
def backupAndDeleteAllNotificationsData (env : Env) (info : BlobServiceInfo)
    (message : RetrievedMessage) :
    List Event ×
      Except DataFailure
        (List (List (JVal RetrievedNotificationStatus) × RetrievedNotification)) :=
  match env.notificationsResult message.id with
  | Except.error e => ([], Except.error (DataFailure.query e))
  | Except.ok notifications =>
    let runs := notifications.map (backupAndDeleteSingleNotificationData env info)
    ((runs.map Prod.fst).flatten, seqList (runs.map Prod.snd))

/-- The per-message lambda of `backupAndDeleteAllMessagesData`: run the
three child cascades (content, message-status history, notifications) with
the parallel `sequenceT(taskEither)` — all three run, first failure wins —
and only if all succeed `.chain` into the message's own backup+delete. -/
def backupAndDeleteSingleMessageData (env : Env) (info : BlobServiceInfo)
    (message : RetrievedMessage) :
    List Event × Except DataFailure RetrievedMessage :=
  let t1 := backupAndDeleteMessageContent env info message
  let t2 := backupAndDeleteMessageStatus env info message
  let t3 := backupAndDeleteAllNotificationsData env info message
  let evs := t1.1 ++ t2.1 ++ t3.1
  match t1.2, t2.2, t3.2 with
  | Except.error f, _, _ => (evs, Except.error f)
  | Except.ok _, Except.error f, _ => (evs, Except.error f)
  | Except.ok _, Except.ok _, Except.error f => (evs, Except.error f)
  | Except.ok _, Except.ok _, Except.ok _ =>
    let t4 := backupAndDeleteMessage env info message
    (evs ++ t4.1, t4.2)

/-- `backupAndDeleteAllMessagesData`: fetch all messages of the user
(`iteratorToArray`, a query failure aborts); each message is processed by
`backupAndDeleteSingleMessageData`; messages are combined with the
parallel `array.sequence(taskEither)` (all run, first failure wins). -/
def backupAndDeleteAllMessagesData (env : Env) (info : BlobServiceInfo)
    (fiscalCode : String) :
    List Event × Except DataFailure (List RetrievedMessage) :=
  match env.messagesResult fiscalCode with
  | Except.error e => ([], Except.error (DataFailure.query e))
  | Except.ok messages =>
    let runs := messages.map (backupAndDeleteSingleMessageData env info)
    ((runs.map Prod.fst).flatten, seqList (runs.map Prod.snd))

/-- `backupAndDeleteAllUserData`: process all messages data, then `.chain`
into the profile cascade — the profile is only touched after every message
(with all its children) succeeded, and a messages failure is returned as
the overall result. -/
def backupAndDeleteAllUserData (env : Env) (info : BlobServiceInfo)
    (fiscalCode : String) :
    List Event × Except DataFailure (List (JVal RetrievedProfile)) :=
  let t1 := backupAndDeleteAllMessagesData env info fiscalCode
  match t1.2 with
  | Except.error f => (t1.1, Except.error f)
  | Except.ok _ =>
    let t2 := backupAndDeleteProfile env info fiscalCode
    (t1.1 ++ t2.1, t2.2)

/-- The decoded `ActivityInput`: `{backupFolder, fiscalCode}`. -/
structure ActivityInput : Type where
  backupFolder : String
  fiscalCode : String
deriving DecidableEq, Repr

/-- `createDeleteUserDataActivityHandler`: decode the input (the io-ts
outcome is modelled by an `Except`), on decode failure return
`INVALID_INPUT_FAILURE`, otherwise run the full cascade with the backup
folder and map success / the data failure onto the activity result. -/
def createDeleteUserDataActivityHandler (env : Env) (containerName : String)
    (input : Except String ActivityInput) : List Event × ActivityResult :=
  match input with
  | Except.error reason => ([], ActivityResult.invalidInput reason)
  | Except.ok i =>
    let info : BlobServiceInfo := ⟨containerName, some i.backupFolder⟩
    let t := backupAndDeleteAllUserData env info i.fiscalCode
    (t.1,
      match t.2 with
      | Except.ok _ => ActivityResult.success
      | Except.error (DataFailure.query m) => ActivityResult.queryFailure m
      | Except.error (DataFailure.blob m) => ActivityResult.blobFailure m
      | Except.error (DataFailure.del m) => ActivityResult.deleteFailure m)

/-! ## Concrete test fixtures -/

/-- A backup destination with folder `backup`. -/
def infoB : BlobServiceInfo := ⟨"container", some "backup"⟩

/-- A first profile version. -/
def paC1 : RetrievedProfile := ⟨"FC", "pa", 1⟩

/-- A second profile version. -/
def pbC1 : RetrievedProfile := ⟨"FC", "pb", 2⟩

/-- A profile version with a long id. -/
def prC5 : RetrievedProfile := ⟨"FC", "PROFILE-0001", 1⟩

/-- A message of the user. -/
def mA : RetrievedMessage := ⟨"FC", "m1"⟩

/-- A notification of message `mA`. -/
def nA : RetrievedNotification := ⟨"m1", "n1"⟩

/-- The environment of a user with no remaining owned records and fully
successful storage. -/
def envEmpty : Env where
  saveOutcome := fun _ => none
  serProfile := fun p => p.id
  serMessage := fun m => m.id
  serMessageStatus := fun s => s.id
  serNotification := fun n => n.id
  serNotificationStatus := fun s => s.id
  serContent := fun c => c
  profilePages := fun _ => []
  profileDelOutcome := fun _ => none
  messagesResult := fun _ => Except.ok []
  messageDelOutcome := fun _ => none
  messageStatusPages := fun _ => []
  messageStatusDelOutcome := fun _ => none
  notificationsResult := fun _ => Except.ok []
  notificationDelOutcome := fun _ => none
  notificationStatusPages := fun _ => []
  notificationStatusDelOutcome := fun _ => none
  contentResult := fun _ => Except.ok none
  contentDelOutcome := fun _ => none

/-- Environment where the profile iterator yields one page `[pa, pb]` and
then a query error, and the backup write for `pb` fails: `pa` is processed
first (backup, delete, recursive fetch hitting the query error), so the
first failure in processing order is the query error, not `pb`'s blob
failure. -/
def envC1 : Env :=
  { envEmpty with
    profilePages := fun _ =>
      [Except.ok (some [paC1, pbC1]), Except.error "boom"]
    saveOutcome := fun p =>
      if p = "backup/profile--2.json" then some "nosave" else none }

/-- Walker parameters for the profile entity type with fully successful
deletes (used to observe the walker's own recursion shape). -/
def opsC2 : WalkerOps RetrievedProfile where
  collection := "profile"
  blobName := fun i => "profile--" ++ toString i.version ++ ".json"
  delKey := fun i => i.id
  delOutcome := fun _ => none
  serialize := fun i => i.id

/-- A storage environment where every backup write succeeds. -/
def soAllOk : String → Option String := fun _ => none

/-- A single two-record page, after which the iterator is exhausted. -/
def pagesC2 : List (PageRes RetrievedProfile) := [Except.ok (some [paC1, pbC1])]

/-- Environment where fetching the message-status history fails with a
query error, so the message's child cascades fail. -/
def envC3 : Env :=
  { envEmpty with
    messagesResult := fun _ => Except.ok [mA]
    messageStatusPages := fun _ => [Except.error "qfail"] }

/-- Environment with a single one-version profile page. -/
def envC5 : Env :=
  { envEmpty with profilePages := fun _ => [Except.ok (some [prC5])] }

/-- Environment where fetching the user's messages fails outright. -/
def envC4 : Env :=
  { envEmpty with
    messagesResult := fun _ => Except.error "mq"
    profilePages := fun _ => [Except.ok (some [paC1])] }

/-- Environment where reading the message content fails as "document not
found" (surfaced as a read error), while everything else succeeds. -/
def envC9 : Env :=
  { envEmpty with
    messagesResult := fun _ => Except.ok [mA]
    contentResult := fun _ => Except.error "document not found" }

/-! ## Trace predicates and observation helpers -/

/-- A successful backup of record `(c, k)` occurs in the trace: some blob
write tagged with that record whose storage outcome was success. -/
def savedOk (so : String → Option String) (evs : List Event)
    (c k : String) : Prop :=
  ∃ p ct, Event.saveBlob c k p ct ∈ evs ∧ so p = none

/-- Invariant I1 at the trace level: every delete call in the trace is for
a record whose backup blob was written successfully somewhere in the same
trace. -/
def deletesBackedUp (so : String → Option String) (evs : List Event) : Prop :=
  ∀ c k, Event.deleteDoc c k ∈ evs → savedOk so evs c k

/-- Some backup write in the trace failed. -/
def hasFailedSave (so : String → Option String) (evs : List Event) : Prop :=
  ∃ c k p ct, Event.saveBlob c k p ct ∈ evs ∧ so p ≠ none

/-- The result is a failure. -/
def isFail {α : Type} (r : Except DataFailure α) : Prop :=
  ∃ f, r = Except.error f

/-- Number of iterator fetches (`executeNext` calls) in a trace. -/
def fetchCount (evs : List Event) : Nat :=
  (evs.filter fun e =>
    match e with
    | Event.fetchPage _ => true
    | _ => false).length

/-- Whether a list of characters occurs inside another (substring test for
blob names). -/
def containsL : List Char → List Char → Bool
  | needle, hay =>
    (List.range (hay.length + 1)).any fun i =>
      (hay.drop i).take needle.length == needle

/-- Characterization of the calls the recursive walker can make: a page
fetch on its own collection, or the backup/delete of one of its items,
with the backup blob named by `ops.blobName` and holding the serialized
item. -/
def walkerEv {T : Type} (info : BlobServiceInfo) (ops : WalkerOps T)
    (ev : Event) : Prop :=
  ev = Event.fetchPage ops.collection ∨
    (∃ item, ev = Event.saveBlob ops.collection (ops.delKey item)
      (blobFullName info (ops.blobName item)) (ops.serialize item)) ∨
    (∃ item, ev = Event.deleteDoc ops.collection (ops.delKey item))

/-! ## The walker as the specification describes it (for claim C2) -/

/-- The spec's `BackupThenMutate` for one record: backup, then (only on
success) delete, returning the record unchanged. -/
def specProcessItem {T : Type} (so : String → Option String)
    (info : BlobServiceInfo) (ops : WalkerOps T) (item : T) :
    List Event × Except DataFailure T :=
  let path := blobFullName info (ops.blobName item)
  let saveEv := Event.saveBlob ops.collection (ops.delKey item) path (ops.serialize item)
  match so path with
  | some msg => ([saveEv], Except.error (DataFailure.blob msg))
  | none =>
    let delEv := Event.deleteDoc ops.collection (ops.delKey item)
    match ops.delOutcome item with
    | some msg => ([saveEv, delEv], Except.error (DataFailure.del msg))
    | none => ([saveEv, delEv], Except.ok item)

/-- The cascade walker as the spec's words describe it: fetch one page; if
empty/absent return the empty list; otherwise run `BackupThenMutate` on
every record of the page and recurse exactly once for the next page,
combining on success as `[...processedPage, ...processedRest]`. -/
def specCascadeWalker {T : Type} (so : String → Option String)
    (info : BlobServiceInfo) (ops : WalkerOps T) :
    List (PageRes T) → List Event × Except DataFailure (List T)
  | [] => ([Event.fetchPage ops.collection], Except.ok [])
  | Except.error e :: _ =>
    ([Event.fetchPage ops.collection], Except.error (DataFailure.query e))
  | Except.ok none :: _ => ([Event.fetchPage ops.collection], Except.ok [])
  | Except.ok (some items) :: rest =>
    let runs := items.map (specProcessItem so info ops)
    let t := specCascadeWalker so info ops rest
    (Event.fetchPage ops.collection :: ((runs.map Prod.fst).flatten ++ t.1),
      match seqList (runs.map Prod.snd), t.2 with
      | Except.error f, _ => Except.error f
      | Except.ok _, Except.error f => Except.error f
      | Except.ok ps, Except.ok rest' => Except.ok (ps ++ rest'))

/-! ## Closed forms of a fully successful drained run (for claim C2) -/

/-- The trace the source walker produces on a fully successful run over
the given nonempty pages: the first record of each page carries the
recursive drain of the remaining pages; every later record of the page
triggers one extra fetch that finds the iterator exhausted. -/
def drainTrace {T : Type} (info : BlobServiceInfo) (ops : WalkerOps T) :
    List (List T) → List Event
  | [] => [Event.fetchPage ops.collection]
  | [] :: _ => [Event.fetchPage ops.collection]
  | (i :: is) :: rest =>
    Event.fetchPage ops.collection ::
      Event.saveBlob ops.collection (ops.delKey i)
        (blobFullName info (ops.blobName i)) (ops.serialize i) ::
      Event.deleteDoc ops.collection (ops.delKey i) ::
      (drainTrace info ops rest ++
        (is.map fun j =>
          [Event.saveBlob ops.collection (ops.delKey j)
              (blobFullName info (ops.blobName j)) (ops.serialize j),
            Event.deleteDoc ops.collection (ops.delKey j),
            Event.fetchPage ops.collection]).flatten)

/-- The nested success value the source walker produces on a fully
successful run over the given nonempty pages: one nested array per record,
the first record of each page containing the drain of the remaining pages,
every later record containing only itself. -/
def drainShape {T : Type} : List (List T) → List (JVal T)
  | [] => []
  | [] :: _ => []
  | (i :: is) :: rest =>
    JVal.arr (JVal.item i :: drainShape rest) ::
      is.map fun j => JVal.arr [JVal.item j]

/-! ## The workflow state machine -/

namespace Workflow

/-- `UserDataProcessingStatusEnum`: the status of a workflow job. -/
inductive Status : Type
  | PENDING
  | WIP
  | CLOSED
  | FAILED
deriving DecidableEq, Repr

/-- `ProcessableUserDataProcessing` (from the source's orchestrator): only
jobs whose status is `PENDING` or `FAILED` decode as processable. -/
def processableStatus : Status → Bool
  | Status.PENDING => true
  | Status.FAILED => true
  | Status.WIP => false
  | Status.CLOSED => false

/-- A `WorkflowJob`: `{id, userKey, status, payload}`. -/
structure WorkflowJob : Type where
  id : String
  userKey : String
  status : Status
  payload : String
deriving DecidableEq, Repr

/-- One call to a workflow step activity.  `setStatus s` is a call to
`setUserDataProcessingStatusActivity` persisting status `s`; the other two
are the business steps. -/
inductive Call : Type
  | setStatus (s : Status)
  | extractUserData
  | sendMessage
deriving DecidableEq, Repr

/-- The workflow's outcome: success, the distinct "not processable"
skip outcome, an invalid input, an activity failure
`{activityName, extra?}` (where `extra` records which status a failing
status-update step was setting), or the fatal orchestration error raised
when the `FAILED` transition itself cannot be persisted. -/
inductive OrchestratorResult : Type
  | success
  | notProcessable
  | invalidInput (reason : String)
  | activityFailure (activityName : String) (extra : Option Status)
  | orchestratorError (activityName : String)
deriving DecidableEq, Repr

/-- The final (post-retry) outcome of each step the workflow can invoke:
`true` means the step (with its bounded-retry policy already applied)
succeeded. -/
structure StepEnv : Type where
  setWip : Bool
  extract : Bool
  send : Bool
  setClosed : Bool
  setFailed : Bool
deriving DecidableEq, Repr

/-- Modelled from the spec: the user-data-download workflow handler
(`getHandler` of the download orchestrator) is not under `src/`; only its
test suite is.  Per §4.7 of the spec, on failure of any step the job is
transitioned to `FAILED` with an `ActivityFailure` naming the failing step
and, when the failing step is a status update, an extra payload with the
status being set; if the `FAILED` persistence itself fails that is a fatal
orchestration error. -/
def failWith (env : StepEnv) (activityName : String) (extra : Option Status) :
    List Call × OrchestratorResult :=
  ([Call.setStatus Status.FAILED],
    if env.setFailed then OrchestratorResult.activityFailure activityName extra
    else OrchestratorResult.orchestratorError activityName)

/-- Modelled from the spec: the user-data-download workflow handler
(`getHandler`) is not under `src/`; only its test suite
(`handler(DELAY)` in `src/unnamed/part_004`) is.  Per §4.7: a job whose
status is `WIP` or `CLOSED` is skipped with the distinct "not processable"
outcome and zero step calls; an accepted (`PENDING`/`FAILED`) job is
transitioned to `WIP`, runs the business steps `extractUserDataActivity`
then `sendUserDataDownloadMessageActivity`, and on success is transitioned
to `CLOSED`; the first failing step aborts through `failWith`. -/
def runWorkflow (env : StepEnv) (job : WorkflowJob) :
    List Call × OrchestratorResult :=
  match job.status with
  | Status.WIP => ([], OrchestratorResult.notProcessable)
  | Status.CLOSED => ([], OrchestratorResult.notProcessable)
  | _ =>
    if env.setWip = false then
      let (fc, r) := failWith env "setUserDataProcessingStatusActivity" (some Status.WIP)
      (Call.setStatus Status.WIP :: fc, r)
    else if env.extract = false then
      let (fc, r) := failWith env "extractUserDataActivity" none
      (Call.setStatus Status.WIP :: Call.extractUserData :: fc, r)
    else if env.send = false then
      let (fc, r) := failWith env "sendUserDataDownloadMessageActivity" none
      (Call.setStatus Status.WIP :: Call.extractUserData :: Call.sendMessage :: fc, r)
    else if env.setClosed = false then
      let (fc, r) := failWith env "setUserDataProcessingStatusActivity" (some Status.CLOSED)
      (Call.setStatus Status.WIP :: Call.extractUserData :: Call.sendMessage ::
        Call.setStatus Status.CLOSED :: fc, r)
    else
      ([Call.setStatus Status.WIP, Call.extractUserData, Call.sendMessage,
        Call.setStatus Status.CLOSED], OrchestratorResult.success)

/-- The first failing step of an accepted run, with its disambiguating
extra payload: `none` when every step succeeds. -/
def firstFailing (env : StepEnv) : Option (String × Option Status) :=
  if env.setWip = false then
    some ("setUserDataProcessingStatusActivity", some Status.WIP)
  else if env.extract = false then some ("extractUserDataActivity", none)
  else if env.send = false then some ("sendUserDataDownloadMessageActivity", none)
  else if env.setClosed = false then
    some ("setUserDataProcessingStatusActivity", some Status.CLOSED)
  else none

/-- The status persisted by a call, if it is a status update. -/
def Call.statusOf : Call → Option Status
  | Call.setStatus s => some s
  | _ => none

/-- A pending workflow job. -/
def jobPending : WorkflowJob := ⟨"job-1", "FC", Status.PENDING, "payload"⟩

/-- A job already being worked on. -/
def jobWip : WorkflowJob := ⟨"job-2", "FC", Status.WIP, "payload"⟩

/-- A step environment where every step succeeds. -/
def envAllOk : StepEnv := ⟨true, true, true, true, true⟩

/-- A step environment where the data-extraction step fails (after
retries) and the `FAILED` transition persists fine. -/
def envExtractFails : StepEnv := ⟨true, false, true, true, true⟩

end Workflow

/-! ## Helper lemmas about traces -/

theorem savedOk_mono {so : String → Option String} {e1 e2 : List Event}
    {c k : String} (hsub : ∀ ev, ev ∈ e1 → ev ∈ e2) :
    savedOk so e1 c k → savedOk so e2 c k := by
  rintro ⟨p, ct, hm, hnone⟩
  exact ⟨p, ct, hsub _ hm, hnone⟩

theorem deletesBackedUp_append {so : String → Option String}
    {e1 e2 : List Event} (h1 : deletesBackedUp so e1)
    (h2 : deletesBackedUp so e2) : deletesBackedUp so (e1 ++ e2) := by
  intro c k hmem
  rcases List.mem_append.mp hmem with h | h
  · exact savedOk_mono (fun ev hv => List.mem_append.mpr (Or.inl hv)) (h1 c k h)
  · exact savedOk_mono (fun ev hv => List.mem_append.mpr (Or.inr hv)) (h2 c k h)

theorem deletesBackedUp_of_no_del {so : String → Option String}
    {evs : List Event} (h : ∀ c k, Event.deleteDoc c k ∉ evs) :
    deletesBackedUp so evs := by
  intro c k hmem
  exact absurd hmem (h c k)

/-! ## Claim C1 groundwork: I1 for the recursive walker -/

theorem processItems_deletes {T : Type} (so : String → Option String)
    (info : BlobServiceInfo) (ops : WalkerOps T)
    (recur : List (PageRes T) →
      List Event × List (PageRes T) × Except DataFailure (List (JVal T)))
    (Hrec : ∀ pages, deletesBackedUp so (recur pages).1) :
    ∀ (items : List T) (pages : List (PageRes T)),
      deletesBackedUp so (processItems so info ops recur items pages).1 := by
  intro items
  induction items with
  | nil =>
    intro pages
    exact deletesBackedUp_of_no_del (by simp [processItems])
  | cons item more ih =>
    intro pages
    simp only [processItems]
    split
    next msg hfail =>
      -- backup failed: trace = saveEv :: tail trace
      intro c k hmem
      rcases List.mem_cons.mp hmem with h | h
      · exact absurd h (by simp)
      · exact savedOk_mono (fun ev hv => List.mem_cons_of_mem _ hv)
          (ih pages c k h)
    next hso =>
      -- backup succeeded
      split
      next msg hdel =>
        -- delete failed: trace = saveEv :: delEv :: tail trace
        intro c k hmem
        rcases List.mem_cons.mp hmem with h | h
        · exact absurd h (by simp)
        rcases List.mem_cons.mp h with h' | h'
        · -- the delete of this very item: its backup just succeeded
          obtain ⟨hc, hk⟩ : c = ops.collection ∧ k = ops.delKey item := by
            simpa [eq_comm] using h'
          subst hc; subst hk
          exact ⟨_, _, List.mem_cons_self _ _, hso⟩
        · exact savedOk_mono
            (fun ev hv => List.mem_cons_of_mem _ (List.mem_cons_of_mem _ hv))
            (ih pages c k h')
      next hdel =>
        -- delete succeeded: trace = saveEv :: delEv :: (recursion ++ tail)
        intro c k hmem
        rcases List.mem_cons.mp hmem with h | h
        · exact absurd h (by simp)
        rcases List.mem_cons.mp h with h' | h'
        · obtain ⟨hc, hk⟩ : c = ops.collection ∧ k = ops.delKey item := by
            simpa [eq_comm] using h'
          subst hc; subst hk
          exact ⟨_, _, List.mem_cons_self _ _, hso⟩
        · rcases List.mem_append.mp h' with h'' | h''
          · exact savedOk_mono
              (fun ev hv => List.mem_cons_of_mem _ (List.mem_cons_of_mem _
                (List.mem_append.mpr (Or.inl hv))))
              (Hrec pages c k h'')
          · exact savedOk_mono
              (fun ev hv => List.mem_cons_of_mem _ (List.mem_cons_of_mem _
                (List.mem_append.mpr (Or.inr hv))))
              (ih _ c k h'')

theorem execRec_deletes {T : Type} (so : String → Option String)
    (info : BlobServiceInfo) (ops : WalkerOps T) :
    ∀ (fuel : Nat) (pages : List (PageRes T)),
      deletesBackedUp so (execRec so info ops fuel pages).1 := by
  intro fuel
  induction fuel with
  | zero =>
    intro pages
    exact deletesBackedUp_of_no_del (by simp [execRec])
  | succ fuel ih =>
    intro pages
    match pages with
    | [] => exact deletesBackedUp_of_no_del (by simp [execRec])
    | Except.error e :: rest => exact deletesBackedUp_of_no_del (by simp [execRec])
    | Except.ok none :: rest => exact deletesBackedUp_of_no_del (by simp [execRec])
    | Except.ok (some items) :: rest =>
      simp only [execRec]
      intro c k hmem
      rcases List.mem_cons.mp hmem with h | h
      · exact absurd h (by simp)
      · exact savedOk_mono (fun ev hv => List.mem_cons_of_mem _ hv)
          (processItems_deletes so info ops _ (fun pgs => ih pgs) items rest c k h)

theorem runWalker_deletes {T : Type} (so : String → Option String)
    (info : BlobServiceInfo) (ops : WalkerOps T) (pages : List (PageRes T)) :
    deletesBackedUp so (runWalker so info ops pages).1 :=
  execRec_deletes so info ops (pages.length + 1) pages

theorem deletesBackedUp_pair {so : String → Option String}
    {path c k ct : String} (hso : so path = none) :
    deletesBackedUp so [Event.saveBlob c k path ct, Event.deleteDoc c k] := by
  intro c' k' hmem
  simp only [List.mem_cons, List.not_mem_nil, or_false] at hmem
  rcases hmem with h | h
  · exact absurd h (by simp)
  · obtain ⟨hc, hk⟩ : c' = c ∧ k' = k := by simpa using h
    subst hc; subst hk
    exact ⟨path, ct, by simp, hso⟩

theorem deletesBackedUp_flatten {so : String → Option String}
    {ls : List (List Event)} (h : ∀ l ∈ ls, deletesBackedUp so l) :
    deletesBackedUp so ls.flatten := by
  induction ls with
  | nil => exact deletesBackedUp_of_no_del (by simp)
  | cons l ls ih =>
    simp only [List.flatten_cons]
    exact deletesBackedUp_append (h l (by simp))
      (ih fun l' hl' => h l' (List.mem_cons_of_mem _ hl'))

/-! ## I1 for every layer of the cascade -/

theorem backupAndDeleteProfile_deletes (env : Env) (info : BlobServiceInfo)
    (fc : String) :
    deletesBackedUp env.saveOutcome (backupAndDeleteProfile env info fc).1 :=
  runWalker_deletes _ _ _ _

theorem backupAndDeleteMessageStatus_deletes (env : Env)
    (info : BlobServiceInfo) (m : RetrievedMessage) :
    deletesBackedUp env.saveOutcome (backupAndDeleteMessageStatus env info m).1 :=
  runWalker_deletes _ _ _ _

theorem backupAndDeleteNotificationStatus_deletes (env : Env)
    (info : BlobServiceInfo) (n : RetrievedNotification) :
    deletesBackedUp env.saveOutcome
      (backupAndDeleteNotificationStatus env info n).1 :=
  runWalker_deletes _ _ _ _

theorem backupAndDeleteNotification_deletes (env : Env)
    (info : BlobServiceInfo) (n : RetrievedNotification) :
    deletesBackedUp env.saveOutcome (backupAndDeleteNotification env info n).1 := by
  simp only [backupAndDeleteNotification, saveDataToBlob]
  cases hso : env.saveOutcome
      (blobFullName info ("notification--" ++ n.id ++ ".json")) with
  | some msg =>
    simp only [hso]
    exact deletesBackedUp_of_no_del (by simp)
  | none =>
    cases hdel : env.notificationDelOutcome n with
    | some msg =>
      simp only [hso, hdel, List.singleton_append]
      exact deletesBackedUp_pair hso
    | none =>
      simp only [hso, hdel, List.singleton_append]
      exact deletesBackedUp_pair hso

theorem backupAndDeleteMessage_deletes (env : Env) (info : BlobServiceInfo)
    (m : RetrievedMessage) :
    deletesBackedUp env.saveOutcome (backupAndDeleteMessage env info m).1 := by
  simp only [backupAndDeleteMessage, saveDataToBlob]
  cases hso : env.saveOutcome
      (blobFullName info ("message--" ++ m.id ++ ".json")) with
  | some msg =>
    simp only [hso]
    exact deletesBackedUp_of_no_del (by simp)
  | none =>
    cases hdel : env.messageDelOutcome m with
    | some msg =>
      simp only [hso, hdel, List.singleton_append]
      exact deletesBackedUp_pair hso
    | none =>
      simp only [hso, hdel, List.singleton_append]
      exact deletesBackedUp_pair hso

theorem backupAndDeleteMessageContent_deletes (env : Env)
    (info : BlobServiceInfo) (m : RetrievedMessage) :
    deletesBackedUp env.saveOutcome
      (backupAndDeleteMessageContent env info m).1 := by
  simp only [backupAndDeleteMessageContent]
  cases hc : env.contentResult m.id with
  | error e => exact deletesBackedUp_of_no_del (by simp)
  | ok o =>
    cases o with
    | none => exact deletesBackedUp_of_no_del (by simp)
    | some content =>
      simp only [saveDataToBlob]
      cases hso : env.saveOutcome
          (blobFullName info ("messagecontent--" ++ m.id ++ ".json")) with
      | some msg =>
        simp only [hso]
        exact deletesBackedUp_of_no_del (by simp)
      | none =>
        cases hdel : env.contentDelOutcome m.id with
        | some msg =>
          simp only [hso, hdel, List.singleton_append]
          exact deletesBackedUp_pair hso
        | none =>
          simp only [hso, hdel, List.singleton_append]
          exact deletesBackedUp_pair hso

theorem backupAndDeleteSingleNotificationData_deletes (env : Env)
    (info : BlobServiceInfo) (n : RetrievedNotification) :
    deletesBackedUp env.saveOutcome
      (backupAndDeleteSingleNotificationData env info n).1 := by
  simp only [backupAndDeleteSingleNotificationData]
  cases h1 : (backupAndDeleteNotificationStatus env info n).2 with
  | error f =>
    simp only [h1]
    exact backupAndDeleteNotificationStatus_deletes env info n
  | ok sts =>
    simp only [h1]
    exact deletesBackedUp_append
      (backupAndDeleteNotificationStatus_deletes env info n)
      (backupAndDeleteNotification_deletes env info n)

theorem backupAndDeleteAllNotificationsData_deletes (env : Env)
    (info : BlobServiceInfo) (m : RetrievedMessage) :
    deletesBackedUp env.saveOutcome
      (backupAndDeleteAllNotificationsData env info m).1 := by
  simp only [backupAndDeleteAllNotificationsData]
  cases hq : env.notificationsResult m.id with
  | error e => exact deletesBackedUp_of_no_del (by simp)
  | ok notifications =>
    apply deletesBackedUp_flatten
    intro l hl
    simp only [List.map_map, List.mem_map] at hl
    obtain ⟨n, _, rfl⟩ := hl
    exact backupAndDeleteSingleNotificationData_deletes env info n

theorem backupAndDeleteSingleMessageData_deletes (env : Env)
    (info : BlobServiceInfo) (m : RetrievedMessage) :
    deletesBackedUp env.saveOutcome
      (backupAndDeleteSingleMessageData env info m).1 := by
  simp only [backupAndDeleteSingleMessageData]
  have hchildren :
      deletesBackedUp env.saveOutcome
        ((backupAndDeleteMessageContent env info m).1 ++
          (backupAndDeleteMessageStatus env info m).1 ++
          (backupAndDeleteAllNotificationsData env info m).1) :=
    deletesBackedUp_append
      (deletesBackedUp_append (backupAndDeleteMessageContent_deletes env info m)
        (backupAndDeleteMessageStatus_deletes env info m))
      (backupAndDeleteAllNotificationsData_deletes env info m)
  cases h1 : (backupAndDeleteMessageContent env info m).2 with
  | error f => simp only [h1]; exact hchildren
  | ok _ =>
    cases h2 : (backupAndDeleteMessageStatus env info m).2 with
    | error f => simp only [h1, h2]; exact hchildren
    | ok _ =>
      cases h3 : (backupAndDeleteAllNotificationsData env info m).2 with
      | error f => simp only [h1, h2, h3]; exact hchildren
      | ok _ =>
        simp only [h1, h2, h3]
        exact deletesBackedUp_append hchildren
          (backupAndDeleteMessage_deletes env info m)

theorem backupAndDeleteAllMessagesData_deletes (env : Env)
    (info : BlobServiceInfo) (fc : String) :
    deletesBackedUp env.saveOutcome
      (backupAndDeleteAllMessagesData env info fc).1 := by
  simp only [backupAndDeleteAllMessagesData]
  cases hq : env.messagesResult fc with
  | error e => exact deletesBackedUp_of_no_del (by simp)
  | ok messages =>
    apply deletesBackedUp_flatten
    intro l hl
    simp only [List.map_map, List.mem_map] at hl
    obtain ⟨m, _, rfl⟩ := hl
    exact backupAndDeleteSingleMessageData_deletes env info m

theorem backupAndDeleteAllUserData_deletes (env : Env)
    (info : BlobServiceInfo) (fc : String) :
    deletesBackedUp env.saveOutcome
      (backupAndDeleteAllUserData env info fc).1 := by
  simp only [backupAndDeleteAllUserData]
  cases h1 : (backupAndDeleteAllMessagesData env info fc).2 with
  | error f =>
    simp only [h1]
    exact backupAndDeleteAllMessagesData_deletes env info fc
  | ok _ =>
    simp only [h1]
    exact deletesBackedUp_append
      (backupAndDeleteAllMessagesData_deletes env info fc)
      (backupAndDeleteProfile_deletes env info fc)

/-! ## A failed backup write forces a failed result -/

theorem hasFailedSave_append {so : String → Option String}
    {e1 e2 : List Event} (h : hasFailedSave so (e1 ++ e2)) :
    hasFailedSave so e1 ∨ hasFailedSave so e2 := by
  rcases h with ⟨c, k, p, ct, hmem, hne⟩
  rcases List.mem_append.mp hmem with h | h
  · exact Or.inl ⟨c, k, p, ct, h, hne⟩
  · exact Or.inr ⟨c, k, p, ct, h, hne⟩

theorem hasFailedSave_flatten {so : String → Option String}
    {ls : List (List Event)} (h : hasFailedSave so ls.flatten) :
    ∃ l ∈ ls, hasFailedSave so l := by
  rcases h with ⟨c, k, p, ct, hmem, hne⟩
  rcases List.mem_flatten.mp hmem with ⟨l, hl, hm⟩
  exact ⟨l, hl, c, k, p, ct, hm, hne⟩

theorem seqList_isFail {e α : Type} {rs : List (Except e α)} {r : Except e α}
    (hmem : r ∈ rs) (hr : ∃ f, r = Except.error f) :
    ∃ f, seqList rs = Except.error f := by
  induction rs with
  | nil => exact absurd hmem (List.not_mem_nil r)
  | cons r0 rs ih =>
    rcases List.mem_cons.mp hmem with h | h
    · subst h
      rcases hr with ⟨f, rfl⟩
      exact ⟨f, by simp [seqList]⟩
    · rcases ih h with ⟨f, hf⟩
      cases r0 with
      | error l => exact ⟨l, by simp [seqList]⟩
      | ok a => exact ⟨f, by simp [seqList, hf]⟩

theorem processItems_fail {T : Type} (so : String → Option String)
    (info : BlobServiceInfo) (ops : WalkerOps T)
    (recur : List (PageRes T) →
      List Event × List (PageRes T) × Except DataFailure (List (JVal T)))
    (Hrec : ∀ pgs, hasFailedSave so (recur pgs).1 → isFail (recur pgs).2.2) :
    ∀ (items : List T) (pages : List (PageRes T)),
      hasFailedSave so (processItems so info ops recur items pages).1 →
      ∃ r ∈ (processItems so info ops recur items pages).2.2, isFail r := by
  intro items
  induction items with
  | nil =>
    intro pages h
    rcases h with ⟨c, k, p, ct, hmem, hne⟩
    simp [processItems] at hmem
  | cons item more ih =>
    intro pages
    simp only [processItems]
    split
    next msg hfail =>
      intro _
      exact ⟨Except.error (DataFailure.blob msg), by simp, ⟨_, rfl⟩⟩
    next hso =>
      split
      next msg hdel =>
        intro _
        exact ⟨Except.error (DataFailure.del msg), by simp, ⟨_, rfl⟩⟩
      next hdel =>
        intro h
        rcases h with ⟨c, k, p, ct, hmem, hne⟩
        rcases List.mem_cons.mp hmem with h1 | h1
        · -- the head save event: but its write succeeded in this branch
          obtain ⟨-, -, hp, -⟩ :
              c = ops.collection ∧ k = ops.delKey item ∧
                p = blobFullName info (ops.blobName item) ∧
                ct = ops.serialize item := by
            simpa using h1
          exact absurd (hp ▸ hso) hne
        rcases List.mem_cons.mp h1 with h2 | h2
        · exact absurd h2 (by simp)
        rcases List.mem_append.mp h2 with h3 | h3
        · -- the failed save lies in this item's recursive drain
          rcases Hrec pages ⟨c, k, p, ct, h3, hne⟩ with ⟨f, hf⟩
          exact ⟨Except.error f, by simp [hf, Except.map], ⟨f, rfl⟩⟩
        · -- the failed save lies in a later item of the page
          rcases ih (recur pages).2.1 ⟨c, k, p, ct, h3, hne⟩ with ⟨r, hr, hfail⟩
          exact ⟨r, List.mem_cons_of_mem _ hr, hfail⟩

theorem execRec_fail {T : Type} (so : String → Option String)
    (info : BlobServiceInfo) (ops : WalkerOps T) :
    ∀ (fuel : Nat) (pages : List (PageRes T)),
      hasFailedSave so (execRec so info ops fuel pages).1 →
      isFail (execRec so info ops fuel pages).2.2 := by
  intro fuel
  induction fuel with
  | zero => intro pages _; exact ⟨_, rfl⟩
  | succ fuel ih =>
    intro pages
    match pages with
    | [] =>
      intro h
      rcases h with ⟨c, k, p, ct, hmem, -⟩
      simp [execRec] at hmem
    | Except.error e :: rest =>
      intro h
      rcases h with ⟨c, k, p, ct, hmem, -⟩
      simp [execRec] at hmem
    | Except.ok none :: rest =>
      intro h
      rcases h with ⟨c, k, p, ct, hmem, -⟩
      simp [execRec] at hmem
    | Except.ok (some items) :: rest =>
      simp only [execRec]
      intro h
      rcases h with ⟨c, k, p, ct, hmem, hne⟩
      rcases List.mem_cons.mp hmem with h1 | h1
      · exact absurd h1 (by simp)
      rcases processItems_fail so info ops _ ih items rest
          ⟨c, k, p, ct, h1, hne⟩ with ⟨r, hr, f, hf⟩
      rcases seqList_isFail hr ⟨f, hf⟩ with ⟨f', hf'⟩
      exact ⟨f', by simp [hf', Except.map]⟩

theorem runWalker_fail {T : Type} (so : String → Option String)
    (info : BlobServiceInfo) (ops : WalkerOps T) (pages : List (PageRes T)) :
    hasFailedSave so (runWalker so info ops pages).1 →
    isFail (runWalker so info ops pages).2 :=
  execRec_fail so info ops (pages.length + 1) pages

theorem backupAndDeleteProfile_fail (env : Env) (info : BlobServiceInfo)
    (fc : String) :
    hasFailedSave env.saveOutcome (backupAndDeleteProfile env info fc).1 →
    isFail (backupAndDeleteProfile env info fc).2 :=
  runWalker_fail _ _ _ _

theorem backupAndDeleteMessageStatus_fail (env : Env) (info : BlobServiceInfo)
    (m : RetrievedMessage) :
    hasFailedSave env.saveOutcome (backupAndDeleteMessageStatus env info m).1 →
    isFail (backupAndDeleteMessageStatus env info m).2 :=
  runWalker_fail _ _ _ _

theorem backupAndDeleteNotificationStatus_fail (env : Env)
    (info : BlobServiceInfo) (n : RetrievedNotification) :
    hasFailedSave env.saveOutcome
      (backupAndDeleteNotificationStatus env info n).1 →
    isFail (backupAndDeleteNotificationStatus env info n).2 :=
  runWalker_fail _ _ _ _

theorem backupAndDeleteNotification_fail (env : Env) (info : BlobServiceInfo)
    (n : RetrievedNotification) :
    hasFailedSave env.saveOutcome (backupAndDeleteNotification env info n).1 →
    isFail (backupAndDeleteNotification env info n).2 := by
  simp only [backupAndDeleteNotification, saveDataToBlob]
  cases hso : env.saveOutcome
      (blobFullName info ("notification--" ++ n.id ++ ".json")) with
  | some msg =>
    simp only [hso]
    intro _
    exact ⟨_, rfl⟩
  | none =>
    cases hdel : env.notificationDelOutcome n with
    | some msg =>
      simp only [hso, hdel]
      intro _
      exact ⟨_, rfl⟩
    | none =>
      simp only [hso, hdel]
      rintro ⟨c, k, p, ct, hmem, hne⟩
      simp only [List.singleton_append, List.mem_cons, List.not_mem_nil,
        or_false] at hmem
      rcases hmem with h | h
      · obtain ⟨-, -, hp, -⟩ :
            c = "notification" ∧ k = n.id ∧
              p = blobFullName info ("notification--" ++ n.id ++ ".json") ∧
              ct = env.serNotification n := by simpa using h
        exact absurd (hp ▸ hso) hne
      · exact absurd h (by simp)

theorem backupAndDeleteMessage_fail (env : Env) (info : BlobServiceInfo)
    (m : RetrievedMessage) :
    hasFailedSave env.saveOutcome (backupAndDeleteMessage env info m).1 →
    isFail (backupAndDeleteMessage env info m).2 := by
  simp only [backupAndDeleteMessage, saveDataToBlob]
  cases hso : env.saveOutcome
      (blobFullName info ("message--" ++ m.id ++ ".json")) with
  | some msg =>
    simp only [hso]
    intro _
    exact ⟨_, rfl⟩
  | none =>
    cases hdel : env.messageDelOutcome m with
    | some msg =>
      simp only [hso, hdel]
      intro _
      exact ⟨_, rfl⟩
    | none =>
      simp only [hso, hdel]
      rintro ⟨c, k, p, ct, hmem, hne⟩
      simp only [List.singleton_append, List.mem_cons, List.not_mem_nil,
        or_false] at hmem
      rcases hmem with h | h
      · obtain ⟨-, -, hp, -⟩ :
            c = "message" ∧ k = m.id ∧
              p = blobFullName info ("message--" ++ m.id ++ ".json") ∧
              ct = env.serMessage m := by simpa using h
        exact absurd (hp ▸ hso) hne
      · exact absurd h (by simp)

theorem backupAndDeleteMessageContent_fail (env : Env) (info : BlobServiceInfo)
    (m : RetrievedMessage) :
    hasFailedSave env.saveOutcome
      (backupAndDeleteMessageContent env info m).1 →
    isFail (backupAndDeleteMessageContent env info m).2 := by
  simp only [backupAndDeleteMessageContent]
  cases hc : env.contentResult m.id with
  | error e =>
    rintro ⟨c, k, p, ct, hmem, -⟩
    simp at hmem
  | ok o =>
    cases o with
    | none =>
      rintro ⟨c, k, p, ct, hmem, -⟩
      simp at hmem
    | some content =>
      simp only [saveDataToBlob]
      cases hso : env.saveOutcome
          (blobFullName info ("messagecontent--" ++ m.id ++ ".json")) with
      | some msg =>
        simp only [hso]
        intro _
        exact ⟨_, rfl⟩
      | none =>
        cases hdel : env.contentDelOutcome m.id with
        | some msg =>
          simp only [hso, hdel]
          intro _
          exact ⟨_, rfl⟩
        | none =>
          simp only [hso, hdel]
          rintro ⟨c, k, p, ct, hmem, hne⟩
          simp only [List.singleton_append, List.mem_cons, List.not_mem_nil,
            or_false] at hmem
          rcases hmem with h | h
          · obtain ⟨-, -, hp, -⟩ :
                c = "message-content" ∧ k = m.id ∧
                  p = blobFullName info ("messagecontent--" ++ m.id ++ ".json") ∧
                  ct = env.serContent content := by simpa using h
            exact absurd (hp ▸ hso) hne
          · exact absurd h (by simp)

theorem backupAndDeleteSingleNotificationData_fail (env : Env)
    (info : BlobServiceInfo) (n : RetrievedNotification) :
    hasFailedSave env.saveOutcome
      (backupAndDeleteSingleNotificationData env info n).1 →
    isFail (backupAndDeleteSingleNotificationData env info n).2 := by
  simp only [backupAndDeleteSingleNotificationData]
  cases h1 : (backupAndDeleteNotificationStatus env info n).2 with
  | error f =>
    simp only [h1]
    intro _
    exact ⟨_, rfl⟩
  | ok sts =>
    simp only [h1]
    intro h
    rcases hasFailedSave_append h with h2 | h2
    · rcases backupAndDeleteNotificationStatus_fail env info n h2 with ⟨f, hf⟩
      exact absurd (h1 ▸ hf) (by simp)
    · rcases backupAndDeleteNotification_fail env info n h2 with ⟨f, hf⟩
      exact ⟨f, by simp [hf, Except.map]⟩

theorem backupAndDeleteAllNotificationsData_fail (env : Env)
    (info : BlobServiceInfo) (m : RetrievedMessage) :
    hasFailedSave env.saveOutcome
      (backupAndDeleteAllNotificationsData env info m).1 →
    isFail (backupAndDeleteAllNotificationsData env info m).2 := by
  simp only [backupAndDeleteAllNotificationsData]
  cases hq : env.notificationsResult m.id with
  | error e =>
    intro _
    exact ⟨_, rfl⟩
  | ok notifications =>
    intro h
    rcases hasFailedSave_flatten h with ⟨l, hl, hfs⟩
    simp only [List.map_map, List.mem_map] at hl
    obtain ⟨n, hn, rfl⟩ := hl
    rcases backupAndDeleteSingleNotificationData_fail env info n hfs with ⟨f, hf⟩
    have hmem : (backupAndDeleteSingleNotificationData env info n).2 ∈
        (notifications.map
          (backupAndDeleteSingleNotificationData env info)).map Prod.snd := by
      simp only [List.map_map, List.mem_map]
      exact ⟨n, hn, rfl⟩
    rcases seqList_isFail hmem ⟨f, hf⟩ with ⟨f', hf'⟩
    exact ⟨f', hf'⟩

theorem backupAndDeleteSingleMessageData_fail (env : Env)
    (info : BlobServiceInfo) (m : RetrievedMessage) :
    hasFailedSave env.saveOutcome
      (backupAndDeleteSingleMessageData env info m).1 →
    isFail (backupAndDeleteSingleMessageData env info m).2 := by
  simp only [backupAndDeleteSingleMessageData]
  cases h1 : (backupAndDeleteMessageContent env info m).2 with
  | error f =>
    simp only [h1]
    intro _
    exact ⟨_, rfl⟩
  | ok v1 =>
    cases h2 : (backupAndDeleteMessageStatus env info m).2 with
    | error f =>
      simp only [h1, h2]
      intro _
      exact ⟨_, rfl⟩
    | ok v2 =>
      cases h3 : (backupAndDeleteAllNotificationsData env info m).2 with
      | error f =>
        simp only [h1, h2, h3]
        intro _
        exact ⟨_, rfl⟩
      | ok v3 =>
        simp only [h1, h2, h3]
        intro h
        rcases hasFailedSave_append h with h4 | h4
        · rcases hasFailedSave_append h4 with h5 | h5
          · rcases hasFailedSave_append h5 with h6 | h6
            · rcases backupAndDeleteMessageContent_fail env info m h6 with ⟨f, hf⟩
              exact absurd (h1 ▸ hf) (by simp)
            · rcases backupAndDeleteMessageStatus_fail env info m h6 with ⟨f, hf⟩
              exact absurd (h2 ▸ hf) (by simp)
          · rcases backupAndDeleteAllNotificationsData_fail env info m h5 with ⟨f, hf⟩
            exact absurd (h3 ▸ hf) (by simp)
        · exact backupAndDeleteMessage_fail env info m h4

theorem backupAndDeleteAllMessagesData_fail (env : Env)
    (info : BlobServiceInfo) (fc : String) :
    hasFailedSave env.saveOutcome
      (backupAndDeleteAllMessagesData env info fc).1 →
    isFail (backupAndDeleteAllMessagesData env info fc).2 := by
  simp only [backupAndDeleteAllMessagesData]
  cases hq : env.messagesResult fc with
  | error e =>
    intro _
    exact ⟨_, rfl⟩
  | ok messages =>
    intro h
    rcases hasFailedSave_flatten h with ⟨l, hl, hfs⟩
    simp only [List.map_map, List.mem_map] at hl
    obtain ⟨m, hm, rfl⟩ := hl
    rcases backupAndDeleteSingleMessageData_fail env info m hfs with ⟨f, hf⟩
    have hmem : (backupAndDeleteSingleMessageData env info m).2 ∈
        (messages.map
          (backupAndDeleteSingleMessageData env info)).map Prod.snd := by
      simp only [List.map_map, List.mem_map]
      exact ⟨m, hm, rfl⟩
    exact seqList_isFail hmem ⟨f, hf⟩

theorem backupAndDeleteAllUserData_fail (env : Env) (info : BlobServiceInfo)
    (fc : String) :
    hasFailedSave env.saveOutcome (backupAndDeleteAllUserData env info fc).1 →
    isFail (backupAndDeleteAllUserData env info fc).2 := by
  simp only [backupAndDeleteAllUserData]
  cases h1 : (backupAndDeleteAllMessagesData env info fc).2 with
  | error f =>
    simp only [h1]
    intro _
    exact ⟨_, rfl⟩
  | ok v =>
    simp only [h1]
    intro h
    rcases hasFailedSave_append h with h2 | h2
    · rcases backupAndDeleteAllMessagesData_fail env info fc h2 with ⟨f, hf⟩
      exact absurd (h1 ▸ hf) (by simp)
    · exact backupAndDeleteProfile_fail env info fc h2

/-! ## Characterizing the calls of each layer -/

theorem walkerEv_coll {T : Type} {info : BlobServiceInfo} {ops : WalkerOps T}
    {ev : Event} (h : walkerEv info ops ev) : ev.coll = ops.collection := by
  rcases h with h | ⟨item, h⟩ | ⟨item, h⟩ <;> subst h <;> rfl

theorem processItems_ev {T : Type} (so : String → Option String)
    (info : BlobServiceInfo) (ops : WalkerOps T)
    (recur : List (PageRes T) →
      List Event × List (PageRes T) × Except DataFailure (List (JVal T)))
    (Hrec : ∀ pgs ev, ev ∈ (recur pgs).1 → walkerEv info ops ev) :
    ∀ (items : List T) (pages : List (PageRes T)) (ev : Event),
      ev ∈ (processItems so info ops recur items pages).1 →
      walkerEv info ops ev := by
  intro items
  induction items with
  | nil =>
    intro pages ev h
    simp [processItems] at h
  | cons item more ih =>
    intro pages ev
    simp only [processItems]
    split
    next msg hfail =>
      intro h
      rcases List.mem_cons.mp h with h1 | h1
      · exact Or.inr (Or.inl ⟨item, h1⟩)
      · exact ih pages ev h1
    next hso =>
      split
      next msg hdel =>
        intro h
        rcases List.mem_cons.mp h with h1 | h1
        · exact Or.inr (Or.inl ⟨item, h1⟩)
        rcases List.mem_cons.mp h1 with h2 | h2
        · exact Or.inr (Or.inr ⟨item, h2⟩)
        · exact ih pages ev h2
      next hdel =>
        intro h
        rcases List.mem_cons.mp h with h1 | h1
        · exact Or.inr (Or.inl ⟨item, h1⟩)
        rcases List.mem_cons.mp h1 with h2 | h2
        · exact Or.inr (Or.inr ⟨item, h2⟩)
        rcases List.mem_append.mp h2 with h3 | h3
        · exact Hrec pages ev h3
        · exact ih _ ev h3

theorem execRec_ev {T : Type} (so : String → Option String)
    (info : BlobServiceInfo) (ops : WalkerOps T) :
    ∀ (fuel : Nat) (pages : List (PageRes T)) (ev : Event),
      ev ∈ (execRec so info ops fuel pages).1 → walkerEv info ops ev := by
  intro fuel
  induction fuel with
  | zero => intro pages ev h; simp [execRec] at h
  | succ fuel ih =>
    intro pages ev
    match pages with
    | [] =>
      intro h
      simp only [execRec, List.mem_singleton] at h
      exact Or.inl h
    | Except.error e :: rest =>
      intro h
      simp only [execRec, List.mem_singleton] at h
      exact Or.inl h
    | Except.ok none :: rest =>
      intro h
      simp only [execRec, List.mem_singleton] at h
      exact Or.inl h
    | Except.ok (some items) :: rest =>
      simp only [execRec]
      intro h
      rcases List.mem_cons.mp h with h1 | h1
      · exact Or.inl h1
      · exact processItems_ev so info ops _ ih items rest ev h1

theorem runWalker_ev {T : Type} (so : String → Option String)
    (info : BlobServiceInfo) (ops : WalkerOps T) (pages : List (PageRes T))
    (ev : Event) (h : ev ∈ (runWalker so info ops pages).1) :
    walkerEv info ops ev :=
  execRec_ev so info ops (pages.length + 1) pages ev h

theorem backupAndDeleteMessageContent_coll (env : Env)
    (info : BlobServiceInfo) (m : RetrievedMessage) :
    ∀ ev ∈ (backupAndDeleteMessageContent env info m).1,
      ev.coll = "message-content" := by
  intro ev h
  simp only [backupAndDeleteMessageContent] at h
  rcases hc : env.contentResult m.id with e | o
  · simp [hc] at h
  cases o with
  | none => simp [hc] at h
  | some content =>
    simp only [hc, saveDataToBlob] at h
    rcases hso : env.saveOutcome
        (blobFullName info ("messagecontent--" ++ m.id ++ ".json")) with - | msg
    · rcases hdel : env.contentDelOutcome m.id with - | msg2 <;>
        simp only [hso, hdel, List.singleton_append] at h <;>
        · rcases List.mem_cons.mp h with h1 | h1
          · subst h1; rfl
          · rcases List.mem_singleton.mp h1 with h2
            subst h2; rfl
    · simp only [hso] at h
      rcases List.mem_singleton.mp h with h1
      subst h1; rfl

theorem backupAndDeleteNotification_coll (env : Env) (info : BlobServiceInfo)
    (n : RetrievedNotification) :
    ∀ ev ∈ (backupAndDeleteNotification env info n).1,
      ev.coll = "notification" := by
  intro ev h
  simp only [backupAndDeleteNotification, saveDataToBlob] at h
  rcases hso : env.saveOutcome
      (blobFullName info ("notification--" ++ n.id ++ ".json")) with - | msg
  · rcases hdel : env.notificationDelOutcome n with - | msg2 <;>
      simp only [hso, hdel, List.singleton_append] at h <;>
      · rcases List.mem_cons.mp h with h1 | h1
        · subst h1; rfl
        · rcases List.mem_singleton.mp h1 with h2
          subst h2; rfl
  · simp only [hso] at h
    rcases List.mem_singleton.mp h with h1
    subst h1; rfl

theorem backupAndDeleteMessage_coll (env : Env) (info : BlobServiceInfo)
    (m : RetrievedMessage) :
    ∀ ev ∈ (backupAndDeleteMessage env info m).1, ev.coll = "message" := by
  intro ev h
  simp only [backupAndDeleteMessage, saveDataToBlob] at h
  rcases hso : env.saveOutcome
      (blobFullName info ("message--" ++ m.id ++ ".json")) with - | msg
  · rcases hdel : env.messageDelOutcome m with - | msg2 <;>
      simp only [hso, hdel, List.singleton_append] at h <;>
      · rcases List.mem_cons.mp h with h1 | h1
        · subst h1; rfl
        · rcases List.mem_singleton.mp h1 with h2
          subst h2; rfl
  · simp only [hso] at h
    rcases List.mem_singleton.mp h with h1
    subst h1; rfl

theorem backupAndDeleteSingleNotificationData_coll (env : Env)
    (info : BlobServiceInfo) (n : RetrievedNotification) :
    ∀ ev ∈ (backupAndDeleteSingleNotificationData env info n).1,
      ev.coll = "notification-status" ∨ ev.coll = "notification" := by
  intro ev h
  simp only [backupAndDeleteSingleNotificationData] at h
  cases h1 : (backupAndDeleteNotificationStatus env info n).2 with
  | error f =>
    simp only [h1] at h
    exact Or.inl (walkerEv_coll (runWalker_ev _ _ _ _ ev h))
  | ok sts =>
    simp only [h1] at h
    rcases List.mem_append.mp h with h2 | h2
    · exact Or.inl (walkerEv_coll (runWalker_ev _ _ _ _ ev h2))
    · exact Or.inr (backupAndDeleteNotification_coll env info n ev h2)

theorem backupAndDeleteAllNotificationsData_coll (env : Env)
    (info : BlobServiceInfo) (m : RetrievedMessage) :
    ∀ ev ∈ (backupAndDeleteAllNotificationsData env info m).1,
      ev.coll = "notification-status" ∨ ev.coll = "notification" := by
  intro ev h
  simp only [backupAndDeleteAllNotificationsData] at h
  rcases hq : env.notificationsResult m.id with e | notifications
  · simp [hq] at h
  · simp only [hq] at h
    rcases List.mem_flatten.mp h with ⟨l, hl, hm⟩
    simp only [List.map_map, List.mem_map] at hl
    obtain ⟨n, -, rfl⟩ := hl
    exact backupAndDeleteSingleNotificationData_coll env info n ev hm

theorem messageChildren_coll (env : Env) (info : BlobServiceInfo)
    (m : RetrievedMessage) :
    ∀ ev ∈ (backupAndDeleteMessageContent env info m).1 ++
        (backupAndDeleteMessageStatus env info m).1 ++
        (backupAndDeleteAllNotificationsData env info m).1,
      ev.coll ≠ "message" ∧ ev.coll ≠ "profile" := by
  intro ev h
  rcases List.mem_append.mp h with h1 | h1
  · rcases List.mem_append.mp h1 with h2 | h2
    · have := backupAndDeleteMessageContent_coll env info m ev h2
      rw [this]
      exact ⟨by decide, by decide⟩
    · have h3 : ev.coll = "message-status" :=
        walkerEv_coll (runWalker_ev _ _ _ _ ev h2)
      rw [h3]
      exact ⟨by decide, by decide⟩
  · rcases backupAndDeleteAllNotificationsData_coll env info m ev h1 with h2 | h2 <;>
      rw [h2] <;> exact ⟨by decide, by decide⟩

theorem backupAndDeleteSingleMessageData_coll (env : Env)
    (info : BlobServiceInfo) (m : RetrievedMessage) :
    ∀ ev ∈ (backupAndDeleteSingleMessageData env info m).1,
      ev.coll ≠ "profile" := by
  intro ev h
  simp only [backupAndDeleteSingleMessageData] at h
  cases h1 : (backupAndDeleteMessageContent env info m).2 with
  | error f =>
    simp only [h1] at h
    exact (messageChildren_coll env info m ev h).2
  | ok v1 =>
    cases h2 : (backupAndDeleteMessageStatus env info m).2 with
    | error f =>
      simp only [h1, h2] at h
      exact (messageChildren_coll env info m ev h).2
    | ok v2 =>
      cases h3 : (backupAndDeleteAllNotificationsData env info m).2 with
      | error f =>
        simp only [h1, h2, h3] at h
        exact (messageChildren_coll env info m ev h).2
      | ok v3 =>
        simp only [h1, h2, h3] at h
        rcases List.mem_append.mp h with h4 | h4
        · exact (messageChildren_coll env info m ev h4).2
        · rw [backupAndDeleteMessage_coll env info m ev h4]
          decide

theorem backupAndDeleteAllMessagesData_coll (env : Env)
    (info : BlobServiceInfo) (fc : String) :
    ∀ ev ∈ (backupAndDeleteAllMessagesData env info fc).1,
      ev.coll ≠ "profile" := by
  intro ev h
  simp only [backupAndDeleteAllMessagesData] at h
  rcases hq : env.messagesResult fc with e | messages
  · simp [hq] at h
  · simp only [hq] at h
    rcases List.mem_flatten.mp h with ⟨l, hl, hm⟩
    simp only [List.map_map, List.mem_map] at hl
    obtain ⟨m, -, rfl⟩ := hl
    exact backupAndDeleteSingleMessageData_coll env info m ev hm

/-! ## Closed form of a fully successful drained walker run -/

theorem seqList_map_ok {e α : Type} (vs : List α) :
    seqList (vs.map (Except.ok : α → Except e α)) = Except.ok vs := by
  induction vs with
  | nil => rfl
  | cons v vs ih => simp [seqList, ih]

theorem processItems_drained {T : Type} (so : String → Option String)
    (info : BlobServiceInfo) (ops : WalkerOps T)
    (recur : List (PageRes T) →
      List Event × List (PageRes T) × Except DataFailure (List (JVal T)))
    (hso : ∀ p, so p = none) (hdel : ∀ t, ops.delOutcome t = none)
    (hrec : recur [] =
      ([Event.fetchPage ops.collection], [], Except.ok [])) :
    ∀ is : List T,
      processItems so info ops recur is [] =
        ((is.map fun j =>
            [Event.saveBlob ops.collection (ops.delKey j)
                (blobFullName info (ops.blobName j)) (ops.serialize j),
              Event.deleteDoc ops.collection (ops.delKey j),
              Event.fetchPage ops.collection]).flatten,
          [],
          is.map fun j => Except.ok [JVal.item j]) := by
  intro is
  induction is with
  | nil => simp [processItems]
  | cons j js ih =>
    simp only [processItems, hso, hdel, hrec, ih, List.map_cons,
      List.flatten_cons, List.cons_append, List.nil_append, Except.map]

theorem execRec_page_eq {T : Type} (so : String → Option String)
    (info : BlobServiceInfo) (ops : WalkerOps T) (fuel : Nat) (its : List T)
    (pgs : List (PageRes T)) :
    execRec so info ops (fuel + 1) (Except.ok (some its) :: pgs) =
      (Event.fetchPage ops.collection ::
          (processItems so info ops (execRec so info ops fuel) its pgs).1,
        (processItems so info ops (execRec so info ops fuel) its pgs).2.1,
        (seqList
          (processItems so info ops (execRec so info ops fuel) its pgs).2.2).map
          (fun ls => ls.map JVal.arr)) := rfl

theorem processItems_cons_ok {T : Type} (so : String → Option String)
    (info : BlobServiceInfo) (ops : WalkerOps T)
    (recur : List (PageRes T) →
      List Event × List (PageRes T) × Except DataFailure (List (JVal T)))
    (i : T) (is : List T) (pages : List (PageRes T))
    (hsoi : so (blobFullName info (ops.blobName i)) = none)
    (hdeli : ops.delOutcome i = none) :
    processItems so info ops recur (i :: is) pages =
      (Event.saveBlob ops.collection (ops.delKey i)
          (blobFullName info (ops.blobName i)) (ops.serialize i) ::
        Event.deleteDoc ops.collection (ops.delKey i) ::
        ((recur pages).1 ++
          (processItems so info ops recur is (recur pages).2.1).1),
        (processItems so info ops recur is (recur pages).2.1).2.1,
        ((recur pages).2.2.map (fun nested => JVal.item i :: nested)) ::
          (processItems so info ops recur is (recur pages).2.1).2.2) := by
  simp [processItems, hsoi, hdeli]

theorem execRec_drained {T : Type} (so : String → Option String)
    (info : BlobServiceInfo) (ops : WalkerOps T)
    (hso : ∀ p, so p = none) (hdel : ∀ t, ops.delOutcome t = none) :
    ∀ ps : List (List T), (∀ items ∈ ps, items ≠ []) →
      execRec so info ops (ps.length + 1)
          (ps.map fun items => Except.ok (some items)) =
        (drainTrace info ops ps, [], Except.ok (drainShape ps)) := by
  intro ps
  induction ps with
  | nil => intro _; simp [execRec, drainTrace, drainShape]
  | cons items rest ih =>
    intro hne
    cases items with
    | nil => exact absurd rfl (hne [] (List.mem_cons_self _ _))
    | cons i is =>
      have hrec1 : execRec so info ops (rest.length + 1) [] =
          ([Event.fetchPage ops.collection], [], Except.ok []) := rfl
      have hnerest : ∀ items ∈ rest, items ≠ [] := fun l hl =>
        hne l (List.mem_cons_of_mem _ hl)
      have hpd := processItems_drained so info ops
        (execRec so info ops (rest.length + 1)) hso hdel hrec1 is
      simp only [List.map_cons, List.length_cons]
      rw [execRec_page_eq]
      rw [processItems_cons_ok so info ops _ i is _ (hso _) (hdel _)]
      rw [ih hnerest]
      rw [hpd]
      have hseq : seqList (List.map (fun j =>
          (Except.ok [JVal.item j] : Except DataFailure (List (JVal T)))) is) =
          Except.ok (List.map (fun j => [JVal.item j]) is) := by
        have h0 := @seqList_map_ok DataFailure (List (JVal T))
          (is.map fun j => [JVal.item j])
        simpa [List.map_map, Function.comp_def] using h0
      simp only [drainTrace, drainShape, seqList, Except.map]
      rw [hseq]
      simp [List.map_map]

theorem runWalker_drained {T : Type} (so : String → Option String)
    (info : BlobServiceInfo) (ops : WalkerOps T)
    (hso : ∀ p, so p = none) (hdel : ∀ t, ops.delOutcome t = none)
    (ps : List (List T)) (hne : ∀ items ∈ ps, items ≠ []) :
    runWalker so info ops (ps.map fun items => Except.ok (some items)) =
      (drainTrace info ops ps, Except.ok (drainShape ps)) := by
  simp only [runWalker, List.length_map]
  rw [execRec_drained so info ops hso hdel ps hne]

/-! ## The claims -/

/-- C1 (amended): every delete call of the whole cascade is for a record
whose backup blob was written successfully in the same run — so a record
whose backup failed is never deleted — and any failed backup write forces
the overall cascade result to be a failure; that failure is the first
failure in processing order, which need not be of kind `BLOB_FAILURE` when
an earlier-processed record failed differently. -/
theorem claim_C1_backup_precedes_delete (env : Env) (info : BlobServiceInfo)
    (fc : String) :
    deletesBackedUp env.saveOutcome (backupAndDeleteAllUserData env info fc).1 ∧
    (hasFailedSave env.saveOutcome (backupAndDeleteAllUserData env info fc).1 →
      isFail (backupAndDeleteAllUserData env info fc).2) :=
  ⟨backupAndDeleteAllUserData_deletes env info fc,
    backupAndDeleteAllUserData_fail env info fc⟩

/-- Witness for C1: in the concrete environment `envC1` a backup write
failed, and the theorem yields that the cascade result is a failure. -/
theorem claim_C1_backup_precedes_delete_witness :
    isFail (backupAndDeleteAllUserData envC1 infoB "FC").2 :=
  (claim_C1_backup_precedes_delete envC1 infoB "FC").2
    ⟨"profile", "pb", "backup/profile--2.json", "pb", by decide, by decide⟩

/-- C1 counterexample: in `envC1` the backup of profile version `pb`
fails and `pb` is never deleted, yet the overall activity result is
`QUERY_FAILURE` (the first failure in processing order), not
`BLOB_FAILURE` as the claim states. -/
theorem claim_C1_counterexample :
    (createDeleteUserDataActivityHandler envC1 "cont"
        (Except.ok ⟨"backup", "FC"⟩)).2 = ActivityResult.queryFailure "boom" ∧
    Event.saveBlob "profile" "pb" "backup/profile--2.json" "pb" ∈
      (createDeleteUserDataActivityHandler envC1 "cont"
        (Except.ok ⟨"backup", "FC"⟩)).1 ∧
    envC1.saveOutcome "backup/profile--2.json" = some "nosave" ∧
    Event.deleteDoc "profile" "pb" ∉
      (createDeleteUserDataActivityHandler envC1 "cont"
        (Except.ok ⟨"backup", "FC"⟩)).1 := by
  refine ⟨by decide, by decide, by decide, by decide⟩

/-- C2 (amended): on a fully successful run over nonempty pages the
source walker recurses once per record of each page — the first record's
recursive call drains the remaining pages, while every later record's
recursive call finds the shared iterator exhausted and contributes one
extra fetch returning empty — and the success value is the list of nested
per-record arrays `[record, ...nextResults]` (`drainShape`), not a flat
concatenation; page N+1 is still only fetched after page N (`drainTrace`
fixes the complete call order). -/
theorem claim_C2_recursion_shape {T : Type} (so : String → Option String)
    (info : BlobServiceInfo) (ops : WalkerOps T)
    (hso : ∀ p, so p = none) (hdel : ∀ t, ops.delOutcome t = none)
    (ps : List (List T)) (hne : ∀ items ∈ ps, items ≠ []) :
    runWalker so info ops (ps.map fun items => Except.ok (some items)) =
      (drainTrace info ops ps, Except.ok (drainShape ps)) :=
  runWalker_drained so info ops hso hdel ps hne

/-- Witness for C2: the drained run over pages `[[pa], [pb]]` evaluated
explicitly. -/
theorem claim_C2_recursion_shape_witness :
    runWalker soAllOk infoB opsC2
        [Except.ok (some [paC1]), Except.ok (some [pbC1])] =
      ([Event.fetchPage "profile",
        Event.saveBlob "profile" "pa" "backup/profile--1.json" "pa",
        Event.deleteDoc "profile" "pa",
        Event.fetchPage "profile",
        Event.saveBlob "profile" "pb" "backup/profile--2.json" "pb",
        Event.deleteDoc "profile" "pb",
        Event.fetchPage "profile"],
        Except.ok [JVal.arr [JVal.item paC1, JVal.arr [JVal.item pbC1]]]) := by
  have h := claim_C2_recursion_shape soAllOk infoB opsC2 (fun _ => rfl)
    (fun _ => rfl) [[paC1], [pbC1]] (by decide)
  exact h

/-- C2 counterexample: over a single page `[pa, pb]` (after which the
iterator is exhausted) the source walker performs three fetches — one per
record plus the initial one — and returns the nested value
`[[pa], [pb]]`, while the claimed behavior (the spec-described walker)
performs exactly two fetches and returns the flat concatenation
`[pa, pb]`; the two success values differ. -/
theorem claim_C2_counterexample :
    (runWalker soAllOk infoB opsC2 pagesC2).2 =
      Except.ok [JVal.arr [JVal.item paC1], JVal.arr [JVal.item pbC1]] ∧
    fetchCount (runWalker soAllOk infoB opsC2 pagesC2).1 = 3 ∧
    (specCascadeWalker soAllOk infoB opsC2 pagesC2).2 =
      Except.ok [paC1, pbC1] ∧
    fetchCount (specCascadeWalker soAllOk infoB opsC2 pagesC2).1 = 2 ∧
    (Except.ok [JVal.arr [JVal.item paC1], JVal.arr [JVal.item pbC1]] :
        Except DataFailure (List (JVal RetrievedProfile))) ≠
      Except.ok ([paC1, pbC1].map JVal.item) := by
  refine ⟨rfl, rfl, rfl, rfl, ?_⟩
  intro h
  injection h with h1
  injection h1 with h2 h3
  exact JVal.noConfusion h2

/-- C3: if any of a message's child cascades (content, message-status
history, notifications with their status histories) fails, the processing
of that message fails and its trace contains no call on the `message`
collection: the backup and the delete of the message itself are never
invoked. -/
theorem claim_C3_children_gate_message (env : Env) (info : BlobServiceInfo)
    (m : RetrievedMessage)
    (hfail : isFail (backupAndDeleteMessageContent env info m).2 ∨
      isFail (backupAndDeleteMessageStatus env info m).2 ∨
      isFail (backupAndDeleteAllNotificationsData env info m).2) :
    isFail (backupAndDeleteSingleMessageData env info m).2 ∧
    ∀ ev ∈ (backupAndDeleteSingleMessageData env info m).1,
      ev.coll ≠ "message" := by
  cases h1 : (backupAndDeleteMessageContent env info m).2 with
  | error f =>
    constructor
    · simp only [backupAndDeleteSingleMessageData, h1]
      exact ⟨f, rfl⟩
    · intro ev h
      simp only [backupAndDeleteSingleMessageData, h1] at h
      exact (messageChildren_coll env info m ev h).1
  | ok v1 =>
    cases h2 : (backupAndDeleteMessageStatus env info m).2 with
    | error f =>
      constructor
      · simp only [backupAndDeleteSingleMessageData, h1, h2]
        exact ⟨f, rfl⟩
      · intro ev h
        simp only [backupAndDeleteSingleMessageData, h1, h2] at h
        exact (messageChildren_coll env info m ev h).1
    | ok v2 =>
      cases h3 : (backupAndDeleteAllNotificationsData env info m).2 with
      | error f =>
        constructor
        · simp only [backupAndDeleteSingleMessageData, h1, h2, h3]
          exact ⟨f, rfl⟩
        · intro ev h
          simp only [backupAndDeleteSingleMessageData, h1, h2, h3] at h
          exact (messageChildren_coll env info m ev h).1
      | ok v3 =>
        exfalso
        rcases hfail with ⟨f, hf⟩ | ⟨f, hf⟩ | ⟨f, hf⟩
        · rw [h1] at hf; exact Except.noConfusion hf
        · rw [h2] at hf; exact Except.noConfusion hf
        · rw [h3] at hf; exact Except.noConfusion hf

/-- Witness for C3: in `envC3` the message-status fetch fails with a
query error, and the message `mA` is never backed up or deleted. -/
theorem claim_C3_children_gate_message_witness :
    isFail (backupAndDeleteSingleMessageData envC3 infoB mA).2 ∧
    ∀ ev ∈ (backupAndDeleteSingleMessageData envC3 infoB mA).1,
      ev.coll ≠ "message" :=
  claim_C3_children_gate_message envC3 infoB mA
    (Or.inr (Or.inl ⟨DataFailure.query "qfail", rfl⟩))

/-- C4: the profile cascade is chained strictly after the messages
cascade: if the messages cascade fails, that failure is the overall
result and the run's trace contains no call on the `profile` collection
(the profile is neither backed up nor deleted); if the messages cascade
succeeds, the overall trace is the messages trace followed by the profile
trace and the overall result is the profile cascade's result. -/
theorem claim_C4_messages_gate_profile (env : Env) (info : BlobServiceInfo)
    (fc : String) :
    (∀ f, (backupAndDeleteAllMessagesData env info fc).2 = Except.error f →
      backupAndDeleteAllUserData env info fc =
        ((backupAndDeleteAllMessagesData env info fc).1, Except.error f) ∧
      ∀ ev ∈ (backupAndDeleteAllUserData env info fc).1,
        ev.coll ≠ "profile") ∧
    (∀ v, (backupAndDeleteAllMessagesData env info fc).2 = Except.ok v →
      backupAndDeleteAllUserData env info fc =
        ((backupAndDeleteAllMessagesData env info fc).1 ++
          (backupAndDeleteProfile env info fc).1,
          (backupAndDeleteProfile env info fc).2)) := by
  constructor
  · intro f hf
    constructor
    · simp only [backupAndDeleteAllUserData, hf]
    · intro ev h
      simp only [backupAndDeleteAllUserData, hf] at h
      exact backupAndDeleteAllMessagesData_coll env info fc ev h
  · intro v hv
    simp only [backupAndDeleteAllUserData, hv]

/-- Witness for C4: in `envC4` the messages query fails, the overall
result is that query failure, and no `profile` call is made even though
the environment holds a profile page. -/
theorem claim_C4_messages_gate_profile_witness :
    backupAndDeleteAllUserData envC4 infoB "FC" =
      ([], Except.error (DataFailure.query "mq")) ∧
    ∀ ev ∈ (backupAndDeleteAllUserData envC4 infoB "FC").1,
      ev.coll ≠ "profile" :=
  (claim_C4_messages_gate_profile envC4 infoB "FC").1
    (DataFailure.query "mq") rfl

/-- C5 (amended): every backup blob written by the cascade, for every
entity type, carries the full serialized record as content and is named
`<entityType>--<version>.json` for the versioned types (profile,
message-status, notification-status — the blob name contains the record's
version but not its id) and `<entityType>--<id>.json` for the
non-versioned types (message, notification, messagecontent). -/
theorem claim_C5_backup_naming (env : Env) (info : BlobServiceInfo)
    (fc : String) (m : RetrievedMessage) (n : RetrievedNotification) :
    (∀ c k p ct,
      Event.saveBlob c k p ct ∈ (backupAndDeleteProfile env info fc).1 →
      ∃ item : RetrievedProfile,
        c = "profile" ∧ k = item.id ∧
        p = blobFullName info
          ("profile--" ++ toString item.version ++ ".json") ∧
        ct = env.serProfile item) ∧
    (∀ c k p ct,
      Event.saveBlob c k p ct ∈ (backupAndDeleteMessageStatus env info m).1 →
      ∃ item : RetrievedMessageStatus,
        c = "message-status" ∧ k = item.id ∧
        p = blobFullName info
          ("message-status--" ++ toString item.version ++ ".json") ∧
        ct = env.serMessageStatus item) ∧
    (∀ c k p ct,
      Event.saveBlob c k p ct ∈
          (backupAndDeleteNotificationStatus env info n).1 →
      ∃ item : RetrievedNotificationStatus,
        c = "notification-status" ∧ k = item.id ∧
        p = blobFullName info
          ("notification-status--" ++ toString item.version ++ ".json") ∧
        ct = env.serNotificationStatus item) ∧
    (∀ c k p ct,
      Event.saveBlob c k p ct ∈ (backupAndDeleteMessage env info m).1 →
      c = "message" ∧ k = m.id ∧
      p = blobFullName info ("message--" ++ m.id ++ ".json") ∧
      ct = env.serMessage m) ∧
    (∀ c k p ct,
      Event.saveBlob c k p ct ∈ (backupAndDeleteNotification env info n).1 →
      c = "notification" ∧ k = n.id ∧
      p = blobFullName info ("notification--" ++ n.id ++ ".json") ∧
      ct = env.serNotification n) ∧
    (∀ c k p ct,
      Event.saveBlob c k p ct ∈
          (backupAndDeleteMessageContent env info m).1 →
      c = "message-content" ∧ k = m.id ∧
      p = blobFullName info ("messagecontent--" ++ m.id ++ ".json") ∧
      ∃ content, env.contentResult m.id = Except.ok (some content) ∧
        ct = env.serContent content) := by
  refine ⟨?_, ?_, ?_, ?_, ?_, ?_⟩
  · intro c k p ct h
    rcases runWalker_ev _ _ _ _ _ h with h1 | ⟨item, h1⟩ | ⟨item, h1⟩
    · exact Event.noConfusion h1
    · injection h1 with hc hk hp hct
      exact ⟨item, hc, hk, hp, hct⟩
    · exact Event.noConfusion h1
  · intro c k p ct h
    rcases runWalker_ev _ _ _ _ _ h with h1 | ⟨item, h1⟩ | ⟨item, h1⟩
    · exact Event.noConfusion h1
    · injection h1 with hc hk hp hct
      exact ⟨item, hc, hk, hp, hct⟩
    · exact Event.noConfusion h1
  · intro c k p ct h
    rcases runWalker_ev _ _ _ _ _ h with h1 | ⟨item, h1⟩ | ⟨item, h1⟩
    · exact Event.noConfusion h1
    · injection h1 with hc hk hp hct
      exact ⟨item, hc, hk, hp, hct⟩
    · exact Event.noConfusion h1
  · intro c k p ct h
    simp only [backupAndDeleteMessage, saveDataToBlob] at h
    rcases hso : env.saveOutcome
        (blobFullName info ("message--" ++ m.id ++ ".json")) with - | msg
    · rcases hdel : env.messageDelOutcome m with - | msg2 <;>
        simp only [hso, hdel, List.singleton_append] at h <;>
        · rcases List.mem_cons.mp h with h1 | h1
          · injection h1 with hc hk hp hct
            exact ⟨hc, hk, hp, hct⟩
          · rcases List.mem_singleton.mp h1 with h2
            exact Event.noConfusion h2
    · simp only [hso] at h
      rcases List.mem_singleton.mp h with h1
      injection h1 with hc hk hp hct
      exact ⟨hc, hk, hp, hct⟩
  · intro c k p ct h
    simp only [backupAndDeleteNotification, saveDataToBlob] at h
    rcases hso : env.saveOutcome
        (blobFullName info ("notification--" ++ n.id ++ ".json")) with - | msg
    · rcases hdel : env.notificationDelOutcome n with - | msg2 <;>
        simp only [hso, hdel, List.singleton_append] at h <;>
        · rcases List.mem_cons.mp h with h1 | h1
          · injection h1 with hc hk hp hct
            exact ⟨hc, hk, hp, hct⟩
          · rcases List.mem_singleton.mp h1 with h2
            exact Event.noConfusion h2
    · simp only [hso] at h
      rcases List.mem_singleton.mp h with h1
      injection h1 with hc hk hp hct
      exact ⟨hc, hk, hp, hct⟩
  · intro c k p ct h
    simp only [backupAndDeleteMessageContent] at h
    rcases hc : env.contentResult m.id with e | o
    · simp [hc] at h
    cases o with
    | none => simp [hc] at h
    | some content =>
      simp only [hc, saveDataToBlob] at h
      rcases hso : env.saveOutcome
          (blobFullName info ("messagecontent--" ++ m.id ++ ".json")) with - | msg
      · rcases hdel : env.contentDelOutcome m.id with - | msg2 <;>
          simp only [hso, hdel, List.singleton_append] at h <;>
          · rcases List.mem_cons.mp h with h1 | h1
            · injection h1 with hc1 hk1 hp1 hct1
              exact ⟨hc1, hk1, hp1, content, rfl, hct1⟩
            · rcases List.mem_singleton.mp h1 with h2
              exact Event.noConfusion h2
      · simp only [hso] at h
        rcases List.mem_singleton.mp h with h1
        injection h1 with hc1 hk1 hp1 hct1
        exact ⟨hc1, hk1, hp1, content, rfl, hct1⟩

/-- Witness for C5: the only backup written for the concrete profile
version `prC5` sits at `backup/profile--1.json`. -/
theorem claim_C5_backup_naming_witness :
    ∃ item : RetrievedProfile,
      "profile" = "profile" ∧ "PROFILE-0001" = item.id ∧
      "backup/profile--1.json" = blobFullName infoB
        ("profile--" ++ toString item.version ++ ".json") ∧
      "PROFILE-0001" = envC5.serProfile item :=
  (claim_C5_backup_naming envC5 infoB "FC" mA nA).1
    "profile" "PROFILE-0001" "backup/profile--1.json" "PROFILE-0001" (by decide)

/-- C5 counterexample: the cascade writes exactly one backup for the
profile version with id `PROFILE-0001`, at blob name
`profile--1.json`, and that blob name does not contain the record's id,
contradicting the claimed `<entityType>--<id>[--<version>].json` shape. -/
theorem claim_C5_counterexample :
    (backupAndDeleteProfile envC5 infoB "FC").1 =
      [Event.fetchPage "profile",
        Event.saveBlob "profile" "PROFILE-0001" "backup/profile--1.json"
          "PROFILE-0001",
        Event.deleteDoc "profile" "PROFILE-0001",
        Event.fetchPage "profile"] ∧
    prC5.id = "PROFILE-0001" ∧
    containsL "PROFILE-0001".toList "backup/profile--1.json".toList = false := by
  refine ⟨by decide, rfl, by decide⟩

/-- C9: when the message content read fails ("document not found" is
surfaced as a read error) or finds no document, the content step returns
success with `none` and makes no backup or delete call; and in the
read-error case the message's cascade still proceeds: with the other two
child cascades succeeding, the message itself is backed up and deleted
and its own result is returned. -/
theorem claim_C9_missing_content (env : Env) (info : BlobServiceInfo)
    (m : RetrievedMessage) :
    (∀ e, env.contentResult m.id = Except.error e →
      backupAndDeleteMessageContent env info m = ([], Except.ok none)) ∧
    (env.contentResult m.id = Except.ok none →
      backupAndDeleteMessageContent env info m = ([], Except.ok none)) ∧
    (∀ e v2 v3, env.contentResult m.id = Except.error e →
      (backupAndDeleteMessageStatus env info m).2 = Except.ok v2 →
      (backupAndDeleteAllNotificationsData env info m).2 = Except.ok v3 →
      backupAndDeleteSingleMessageData env info m =
        (([] ++ (backupAndDeleteMessageStatus env info m).1 ++
            (backupAndDeleteAllNotificationsData env info m).1) ++
          (backupAndDeleteMessage env info m).1,
          (backupAndDeleteMessage env info m).2)) := by
  refine ⟨?_, ?_, ?_⟩
  · intro e he
    simp [backupAndDeleteMessageContent, he]
  · intro he
    simp [backupAndDeleteMessageContent, he]
  · intro e v2 v3 he h2 h3
    have hcontent : backupAndDeleteMessageContent env info m =
        ([], Except.ok none) := by
      simp [backupAndDeleteMessageContent, he]
    simp only [backupAndDeleteSingleMessageData, hcontent, h2, h3]

/-- Witness for C9: in `envC9` the content read fails, the content step
returns `([], ok none)`, and the message `mA` is still backed up and
deleted. -/
theorem claim_C9_missing_content_witness :
    backupAndDeleteMessageContent envC9 infoB mA = ([], Except.ok none) ∧
    backupAndDeleteSingleMessageData envC9 infoB mA =
      (([] ++ (backupAndDeleteMessageStatus envC9 infoB mA).1 ++
          (backupAndDeleteAllNotificationsData envC9 infoB mA).1) ++
        (backupAndDeleteMessage envC9 infoB mA).1,
        (backupAndDeleteMessage envC9 infoB mA).2) :=
  ⟨(claim_C9_missing_content envC9 infoB mA).1 "document not found" rfl,
    (claim_C9_missing_content envC9 infoB mA).2.2 "document not found" [] []
      rfl rfl rfl⟩

/-- C10: the delete-user-data activity never returns
`USER_NOT_FOUND_FAILURE` — for every environment and input its result is
one of the other variants — and in particular a user with zero remaining
owned records yields `SUCCESS`. -/
theorem claim_C10_no_user_not_found :
    (∀ (env : Env) (cn : String) (input : Except String ActivityInput),
      (createDeleteUserDataActivityHandler env cn input).2 ≠
        ActivityResult.userNotFound) ∧
    (createDeleteUserDataActivityHandler envEmpty "container"
        (Except.ok ⟨"backup", "FC"⟩)).2 = ActivityResult.success := by
  constructor
  · intro env cn input
    cases input with
    | error r => simp [createDeleteUserDataActivityHandler]
    | ok i =>
      simp only [createDeleteUserDataActivityHandler]
      cases h : (backupAndDeleteAllUserData env
          ⟨cn, some i.backupFolder⟩ i.fiscalCode).2 with
      | ok v => simp [h]
      | error f => cases f <;> simp [h]
  · rfl

/-- Witness for C10: the concrete zero-records run is not a user-not-found
failure. -/
theorem claim_C10_no_user_not_found_witness :
    (createDeleteUserDataActivityHandler envEmpty "container"
        (Except.ok ⟨"backup", "FC"⟩)).2 ≠ ActivityResult.userNotFound :=
  claim_C10_no_user_not_found.1 envEmpty "container"
    (Except.ok ⟨"backup", "FC"⟩)

/-- C6: a workflow job whose status is `WIP` or `CLOSED` is not
processable (the source's acceptance codec rejects it) and the workflow
yields the distinct "not processable" outcome with zero step calls — no
status update, no data extraction, no message send. -/
theorem claim_C6_skip_wip_closed (env : Workflow.StepEnv)
    (job : Workflow.WorkflowJob)
    (h : job.status = Workflow.Status.WIP ∨
      job.status = Workflow.Status.CLOSED) :
    Workflow.processableStatus job.status = false ∧
    Workflow.runWorkflow env job =
      ([], Workflow.OrchestratorResult.notProcessable) := by
  rcases h with h | h <;>
    exact ⟨by rw [h]; rfl, by simp [Workflow.runWorkflow, h]⟩

/-- Witness for C6: the concrete `WIP` job is skipped with no calls. -/
theorem claim_C6_skip_wip_closed_witness :
    Workflow.processableStatus Workflow.jobWip.status = false ∧
    Workflow.runWorkflow Workflow.envAllOk Workflow.jobWip =
      ([], Workflow.OrchestratorResult.notProcessable) :=
  claim_C6_skip_wip_closed Workflow.envAllOk Workflow.jobWip (Or.inl rfl)

/-- C7: a `PENDING` job whose steps all succeed makes exactly the calls
`setStatus WIP; extract; send; setStatus CLOSED` and returns success: the
status is persisted exactly twice, first `WIP` then `CLOSED`, in that
order. -/
theorem claim_C7_two_status_transitions (env : Workflow.StepEnv)
    (job : Workflow.WorkflowJob)
    (hst : job.status = Workflow.Status.PENDING)
    (h1 : env.setWip = true) (h2 : env.extract = true)
    (h3 : env.send = true) (h4 : env.setClosed = true) :
    Workflow.runWorkflow env job =
      ([Workflow.Call.setStatus Workflow.Status.WIP,
        Workflow.Call.extractUserData,
        Workflow.Call.sendMessage,
        Workflow.Call.setStatus Workflow.Status.CLOSED],
        Workflow.OrchestratorResult.success) ∧
    (Workflow.runWorkflow env job).1.filterMap Workflow.Call.statusOf =
      [Workflow.Status.WIP, Workflow.Status.CLOSED] := by
  have heq : Workflow.runWorkflow env job =
      ([Workflow.Call.setStatus Workflow.Status.WIP,
        Workflow.Call.extractUserData,
        Workflow.Call.sendMessage,
        Workflow.Call.setStatus Workflow.Status.CLOSED],
        Workflow.OrchestratorResult.success) := by
    simp [Workflow.runWorkflow, hst, h1, h2, h3, h4]
  refine ⟨heq, ?_⟩
  rw [heq]
  rfl

/-- Witness for C7: the fully successful run on the concrete pending
job. -/
theorem claim_C7_two_status_transitions_witness :
    Workflow.runWorkflow Workflow.envAllOk Workflow.jobPending =
      ([Workflow.Call.setStatus Workflow.Status.WIP,
        Workflow.Call.extractUserData,
        Workflow.Call.sendMessage,
        Workflow.Call.setStatus Workflow.Status.CLOSED],
        Workflow.OrchestratorResult.success) ∧
    (Workflow.runWorkflow Workflow.envAllOk Workflow.jobPending).1.filterMap
        Workflow.Call.statusOf =
      [Workflow.Status.WIP, Workflow.Status.CLOSED] :=
  claim_C7_two_status_transitions Workflow.envAllOk Workflow.jobPending
    rfl rfl rfl rfl rfl

/-- C8: for an accepted job (status `PENDING` or `FAILED`), when some step
fails (and the `FAILED` transition itself persists), the run ends with a
`setStatus FAILED` call and returns an activity failure whose
`activityName` is the first failing step's name, carrying the extra
status payload exactly when the failing step is a status update. -/
theorem claim_C8_failure_reporting (env : Workflow.StepEnv)
    (job : Workflow.WorkflowJob) (name : String)
    (extra : Option Workflow.Status)
    (hacc : job.status = Workflow.Status.PENDING ∨
      job.status = Workflow.Status.FAILED)
    (hsf : env.setFailed = true)
    (hff : Workflow.firstFailing env = some (name, extra)) :
    (Workflow.runWorkflow env job).2 =
      Workflow.OrchestratorResult.activityFailure name extra ∧
    (Workflow.runWorkflow env job).1.getLast? =
      some (Workflow.Call.setStatus Workflow.Status.FAILED) := by
  obtain ⟨w, x, y, z, sf⟩ := env
  simp only at hsf
  subst hsf
  rcases hacc with h | h <;>
    cases w <;> cases x <;> cases y <;> cases z <;>
      simp_all [Workflow.runWorkflow, Workflow.failWith, Workflow.firstFailing]

/-- Witness for C8: the concrete run where data extraction fails. -/
theorem claim_C8_failure_reporting_witness :
    (Workflow.runWorkflow Workflow.envExtractFails Workflow.jobPending).2 =
      Workflow.OrchestratorResult.activityFailure
        "extractUserDataActivity" none ∧
    (Workflow.runWorkflow Workflow.envExtractFails
        Workflow.jobPending).1.getLast? =
      some (Workflow.Call.setStatus Workflow.Status.FAILED) :=
  claim_C8_failure_reporting Workflow.envExtractFails Workflow.jobPending
    "extractUserDataActivity" none (Or.inl rfl) rfl rfl

end IoFunctionsAdmin
